import Mathlib

/-!
Shallow embedding of the ai-excel typed-cell data model and
derivation/validation engine.

Sources embedded:
- src/src/components/DataGrid.tsx: the DataGrid validator (namespace DataGrid)
  and the SpreadsheetGrid helpers (namespace SpreadsheetGrid): toNumberLike,
  toDateLike, formatNumber, formatDate, computeValue, validateCell,
  applyFormattingOnBlur, and the computed-cell display rule.
- src/unnamed/part_000: the ColumnPanel type declarations (ColumnType,
  ComputedKind, ComputedSpec, DateFormat, ColumnFormat, ColumnDef), and the
  Workbook component: makeDefaultColumns, makeEmptyCells, the cells-resize
  effect (reshapeCells), fillDownFromCell, loadState.
- src/unnamed/part_001: the SchemaBuilder loadSaved.

Modelling conventions:
- JS strings are Lean String; character-level work happens on String.data.
- JS Number(string) is modelled by parseJsNumber: the decimal numeric-literal
  grammar (optional sign, integer digits, optional fraction, optional
  exponent; the empty string parses to 0).  JS doubles are modelled as exact
  rationals; Number.isFinite is absorbed by the parser producing only
  rationals.  Host-specific forms (hex literals, "Infinity", overflow to
  Infinity) are outside the model.
- n.toFixed(d) is modelled exactly as the ECMAScript algorithm on the rational
  value: a negative sign is peeled off first and the magnitude is rounded to
  the nearest d-decimal value, half away from zero at ties, so that
  (-0.001).toFixed(2) produces "-0.00".
- new Date(v) is modelled as a timezone-free calendar-date parser accepting
  the two shapes this program produces and consumes: digits-digits-digits
  joined by "-" (year-month-day) and by "/" (month/day/year), with real
  month/day range validation.  getTime differences are day-based.
- JS objects keyed by column id are association lists (first hit wins);
  JSON.parse results are records of per-field Options (none = field missing
  or of the wrong runtime type); a thrown JSON.parse is the none input of
  the loader.
- Computed-cell value strings: the evaluator stringifies its numeric result
  and the grid reparses it for display; since JS number-to-string-to-number
  round-trips exactly, the model keeps the numeric value (EvalResult.value :
  Option Rat, none standing for the empty string the code stores on error).
-/

set_option autoImplicit false

attribute [local semireducible] Rat.add Rat.mul Rat.sub Rat.inv Rat.ofScientific

/-! ## JS string primitives -/

/-- Whitespace class of the source regexes and String.prototype.trim
(restricted to the four common whitespace characters). -/
def isWSChar (c : Char) : Bool := c == ' ' || c == '\t' || c == '\n' || c == '\r'

/-- Model of String.prototype.trim. -/
def jsTrim (l : List Char) : List Char :=
  ((l.dropWhile isWSChar).reverse.dropWhile isWSChar).reverse

/-- Decimal digit test. -/
def isDigitC (c : Char) : Bool :=
  c == '0' || c == '1' || c == '2' || c == '3' || c == '4' ||
  c == '5' || c == '6' || c == '7' || c == '8' || c == '9'

/-- The character of a decimal digit. -/
def digitChar (n : ℕ) : Char :=
  match n with
  | 0 => '0' | 1 => '1' | 2 => '2' | 3 => '3' | 4 => '4'
  | 5 => '5' | 6 => '6' | 7 => '7' | 8 => '8' | _ => '9'

/-- The value of a decimal digit character. -/
def digitVal (c : Char) : ℕ :=
  if c == '1' then 1 else if c == '2' then 2 else if c == '3' then 3
  else if c == '4' then 4 else if c == '5' then 5 else if c == '6' then 6
  else if c == '7' then 7 else if c == '8' then 8 else if c == '9' then 9
  else 0

/-- Value of a big-endian digit string. -/
def ofDigitsList (l : List Char) : ℕ :=
  l.foldl (fun a c => 10 * a + digitVal c) 0

/-- Fuel-driven decimal rendering of a natural number (big-endian). -/
def renderNatAux : ℕ → ℕ → List Char
  | 0, _ => []
  | fuel + 1, n =>
    if n < 10 then [digitChar n]
    else renderNatAux fuel (n / 10) ++ [digitChar (n % 10)]

/-- Decimal rendering of a natural number, as JS String(n) produces it. -/
def renderNat (n : ℕ) : List Char := renderNatAux (n + 1) n

/-! ## JS Number(string): decimal numeric literal parser into the rationals -/

/-- Exponent digits (after an optional sign); yields the power-of-ten
multiplier. -/
def parseExpDigits (t : List Char) : Option ℚ :=
  match t with
  | '-' :: r =>
    if !r.isEmpty && r.all isDigitC then some (1 / (10 : ℚ) ^ ofDigitsList r) else none
  | '+' :: r =>
    if !r.isEmpty && r.all isDigitC then some ((10 : ℚ) ^ ofDigitsList r) else none
  | r =>
    if !r.isEmpty && r.all isDigitC then some ((10 : ℚ) ^ ofDigitsList r) else none

/-- Optional exponent suffix; yields the power-of-ten multiplier. -/
def parseExpPart (l : List Char) : Option ℚ :=
  match l with
  | [] => some 1
  | 'e' :: t => parseExpDigits t
  | 'E' :: t => parseExpDigits t
  | _ => none

/-- Unsigned decimal literal: digits, optional fraction, optional exponent. -/
def parseUnsignedNum (l : List Char) : Option ℚ :=
  let intD := l.takeWhile isDigitC
  let rest1 := l.dropWhile isDigitC
  match rest1 with
  | '.' :: t =>
    let fracD := t.takeWhile isDigitC
    let rest2 := t.dropWhile isDigitC
    if intD.isEmpty && fracD.isEmpty then none
    else
      match parseExpPart rest2 with
      | none => none
      | some mult =>
        some (((ofDigitsList intD : ℚ) + (ofDigitsList fracD : ℚ) / 10 ^ fracD.length) * mult)
  | rest =>
    if intD.isEmpty then none
    else
      match parseExpPart rest with
      | none => none
      | some mult => some ((ofDigitsList intD : ℚ) * mult)

/-- Model of JS Number(string) on an already-trimmed character list:
the empty string is 0, otherwise an optionally signed decimal literal;
anything else is NaN (none). -/
def parseJsNumber (l : List Char) : Option ℚ :=
  match l with
  | [] => some 0
  | c :: t =>
    if c = '-' then (parseUnsignedNum t).map (fun q => -q)
    else if c = '+' then parseUnsignedNum t
    else parseUnsignedNum (c :: t)

/-! ## JS Date model: timezone-free calendar dates -/

/-- A calendar date (month is 1-based, as the source renders getMonth()+1). -/
structure CalDate where
  year : ℕ
  month : ℕ
  day : ℕ
deriving DecidableEq

/-- Gregorian leap-year rule. -/
def isLeap (y : ℕ) : Bool := (y % 4 == 0 && y % 100 != 0) || y % 400 == 0

/-- Days in a month. -/
def daysInMonth (y m : ℕ) : ℕ :=
  if m = 2 then (if isLeap y then 29 else 28)
  else if m = 4 ∨ m = 6 ∨ m = 9 ∨ m = 11 then 30
  else 31

/-- Split a character list at every occurrence of a separator. -/
def splitOnC (sep : Char) : List Char → List (List Char)
  | [] => [[]]
  | c :: rest =>
    let r := splitOnC sep rest
    if c = sep then [] :: r
    else
      match r with
      | [] => [[c]]
      | h :: t => (c :: h) :: t

/-- Assemble a date from year/month/day digit strings, validating ranges. -/
def mkValidDate (ys ms ds : List Char) : Option CalDate :=
  if ys.isEmpty || ms.isEmpty || ds.isEmpty then none
  else if !(ys.all isDigitC && ms.all isDigitC && ds.all isDigitC) then none
  else
    let y := ofDigitsList ys
    let m := ofDigitsList ms
    let d := ofDigitsList ds
    if 1 ≤ m ∧ m ≤ 12 ∧ 1 ≤ d ∧ d ≤ daysInMonth y m then some ⟨y, m, d⟩ else none

/-- Model of new Date(v) restricted to the calendar-date shapes this program
produces and consumes: Y-M-D and M/D/Y with decimal components. -/
def jsDateParse (l : List Char) : Option CalDate :=
  match splitOnC '-' l with
  | [ys, ms, ds] => mkValidDate ys ms ds
  | _ =>
    match splitOnC '/' l with
    | [ms, ds, ys] => mkValidDate ys ms ds
    | _ => none

/-- Days elapsed before the start of year y (from the proleptic year 0). -/
def daysBeforeYear (y : ℕ) : ℕ :=
  365 * y + (y + 3) / 4 - (y + 99) / 100 + (y + 399) / 400

/-- Days elapsed within year y before the start of month m. -/
def daysBeforeMonth (y m : ℕ) : ℕ :=
  ((List.range (m - 1)).map (fun i => daysInMonth y (i + 1))).sum

/-- Linear day number of a calendar date; getTime differences are
86400000 times differences of this. -/
def daysFromCivil (d : CalDate) : ℕ :=
  daysBeforeYear d.year + daysBeforeMonth d.year d.month + (d.day - 1)

/-! ## ColumnPanel type declarations (src/unnamed/part_000, third section) -/

inductive ColumnType
  | untyped | date | text | number | currency | percent | enum | computed
deriving DecidableEq

inductive ComputedKind
  | divide | subtract | date_diff_years
deriving DecidableEq

structure ComputedSpec where
  kind : ComputedKind
  inputs : List String
deriving DecidableEq

inductive DateFormat
  | iso | mdy
deriving DecidableEq

structure ColumnFormat where
  decimals : Option ℕ := none
  dateFormat : Option DateFormat := none
deriving DecidableEq

structure ColumnDef where
  id : String
  name : String
  type : ColumnType
  required : Bool
  description : String := ""
  enumValues : List String := []
  computed : Option ComputedSpec := none
  format : Option ColumnFormat := none
deriving DecidableEq

/-! ## SpreadsheetGrid helpers (src/src/components/DataGrid.tsx, second file) -/

namespace SpreadsheetGrid

/-- Characters stripped by toNumberLike's regex [$,%\s,]. -/
def isNumJunk (c : Char) : Bool := c == '$' || c == ',' || c == '%' || isWSChar c

/-- toNumberLike: trim; empty is null; strip currency/group punctuation and
whitespace; parse as a number; null unless finite. -/
def toNumberLike (s : String) : Option ℚ :=
  let v := jsTrim s.data
  if v.isEmpty then none
  else parseJsNumber (v.filter (fun c => !isNumJunk c))

/-- toDateLike: trim; empty is null; parse as a date. -/
def toDateLike (s : String) : Option CalDate :=
  let v := jsTrim s.data
  if v.isEmpty then none else jsDateParse v

/-- Left-pad a rendered natural to d characters with zeros. -/
def padZeros (d m : ℕ) : List Char :=
  List.replicate (d - (renderNat m).length) '0' ++ renderNat m

/-- Fixed-point rendering of the d-decimal value n / 10^d. -/
def renderFixed (n d : ℕ) : List Char :=
  if d = 0 then renderNat n
  else renderNat (n / 10 ^ d) ++ '.' :: padZeros d (n % 10 ^ d)

/-- Model of Number.prototype.toFixed(d): peel a negative sign, then round
the magnitude to the nearest d-decimal value (half away from zero). -/
def toFixed (q : ℚ) (d : ℕ) : List Char :=
  if q < 0 then '-' :: renderFixed (⌊-q * 10 ^ d + 1 / 2⌋).toNat d
  else renderFixed (⌊q * 10 ^ d + 1 / 2⌋).toNat d

/-- formatNumber(n, decimals) = n.toFixed(decimals). -/
def formatNumber (n : ℚ) (decimals : ℕ) : String := ⟨toFixed n decimals⟩

/-- Two-character zero-padding of a date component. -/
def pad2 (n : ℕ) : List Char := if n < 10 then '0' :: renderNat n else renderNat n

/-- formatDate: iso renders YYYY-MM-DD zero-padded, mdy renders M/D/YYYY
unpadded, from the calendar components. -/
def formatDate (d : CalDate) (fmt : DateFormat) : String :=
  match fmt with
  | .iso => ⟨renderNat d.year ++ '-' :: (pad2 d.month ++ '-' :: pad2 d.day)⟩
  | .mdy => ⟨renderNat d.month ++ '/' :: (renderNat d.day ++ '/' :: renderNat d.year)⟩

/-- Look up a column id in the row-values object (association list). -/
def lookupById (row : List (String × String)) (k : String) : Option String :=
  (row.find? (fun p => p.1 == k)).map (fun p => p.2)

/-- Result of the computed-column evaluator.  value none models the empty
string the code stores alongside every error; on success it carries the
numeric result the code stringifies. -/
structure EvalResult where
  value : Option ℚ
  error : Option String
deriving DecidableEq

/-- Milliseconds per day, as written in the source. -/
def msPerDay : ℚ := 1000 * 60 * 60 * 24

/-- The date_diff_years arithmetic: millisecond difference divided by
(1000*60*60*24*365.25). -/
def dateDiffYears (s e : CalDate) : ℚ :=
  (((daysFromCivil e : ℤ) - (daysFromCivil s : ℤ) : ℤ) : ℚ) * msPerDay / (msPerDay * 365.25)

/-- computeValue: the computed-column evaluator. -/
def computeValue (col : ColumnDef) (rowValuesById : List (String × String)) : EvalResult :=
  match col.computed with
  | none => ⟨none, some "Missing computed spec"⟩
  | some spec =>
    let aId := spec.inputs.getD 0 ""
    let bId := spec.inputs.getD 1 ""
    let aRaw := if aId.data.isEmpty then "" else (lookupById rowValuesById aId).getD ""
    let bRaw := if bId.data.isEmpty then "" else (lookupById rowValuesById bId).getD ""
    if aId.data.isEmpty || bId.data.isEmpty then ⟨none, some "Select input columns"⟩
    else
      match spec.kind with
      | .divide =>
        match toNumberLike aRaw, toNumberLike bRaw with
        | some a, some b =>
          if b = 0 then ⟨none, some "Divide by zero"⟩ else ⟨some (a / b), none⟩
        | _, _ => ⟨none, some "Inputs must be numbers"⟩
      | .subtract =>
        match toNumberLike aRaw, toNumberLike bRaw with
        | some a, some b => ⟨some (a - b), none⟩
        | _, _ => ⟨none, some "Inputs must be numbers"⟩
      | .date_diff_years =>
        match toDateLike aRaw, toDateLike bRaw with
        | some s, some e => ⟨some (dateDiffYears s e), none⟩
        | _, _ => ⟨none, some "Inputs must be dates"⟩

/-- The grid's display rule for a computed cell: empty on error, otherwise
the numeric value formatted with the column's decimals (default 4). -/
def computedDisplay (col : ColumnDef) (row : List (String × String)) : String :=
  let res := computeValue col row
  let dec := (col.format.bind (fun f => f.decimals)).getD 4
  match res.error with
  | some _ => ""
  | none =>
    match res.value with
    | some q => formatNumber q dec
    | none => ""

/-- The SpreadsheetGrid validator. -/
def validateCell (col : ColumnDef) (raw : String) : Option String :=
  if col.type = .computed then none
  else if col.type = .untyped then none
  else
    let v : String := ⟨jsTrim raw.data⟩
    if col.required && v.data.isEmpty then some "Required"
    else if v.data.isEmpty then none
    else
      match col.type with
      | .text => none
      | .number =>
        match toNumberLike v with
        | none => some "Must be a number"
        | some _ => none
      | .currency =>
        match toNumberLike v with
        | none => some "Must be a currency amount"
        | some _ => none
      | .percent =>
        match toNumberLike v with
        | none => some "Must be a percent"
        | some n => if n < -100 ∨ n > 1000 then some "Percent looks off" else none
      | .date =>
        match toDateLike v with
        | none => some "Invalid date"
        | some _ => none
      | .enum =>
        if col.enumValues.isEmpty then some "Enum has no options"
        else if col.enumValues.contains v then none
        else some ("Must be one of: " ++ String.intercalate ", " col.enumValues)
      | _ => none

/-- applyFormattingOnBlur: the Formatter (canonicalize).  The decimals
default in the source is 2 for every type (the conditional collapses). -/
def applyFormattingOnBlur (col : ColumnDef) (raw : String) : String :=
  let v : String := ⟨jsTrim raw.data⟩
  if v.data.isEmpty then ""
  else
    let decimals := (col.format.bind (fun f => f.decimals)).getD 2
    if col.type = .number ∨ col.type = .currency then
      match toNumberLike v with
      | none => raw
      | some n => formatNumber n decimals
    else if col.type = .percent then
      match toNumberLike v with
      | none => raw
      | some n => formatNumber n decimals ++ "%"
    else if col.type = .date then
      match toDateLike v with
      | none => raw
      | some d => formatDate d ((col.format.bind (fun f => f.dateFormat)).getD .iso)
    else raw

/-- The inputs for which canonicalize is not idempotent: a numeric-typed
value that is negative and rounds to zero at the column's decimal count
(rendered "-0.00…", reparsed as zero, re-rendered "0.00…"). -/
def negZeroRounds (col : ColumnDef) (raw : String) : Bool :=
  if col.type = .number ∨ col.type = .currency ∨ col.type = .percent then
    match toNumberLike ⟨jsTrim raw.data⟩ with
    | some q =>
      decide (q < 0) &&
        ((⌊-q * 10 ^ ((col.format.bind (fun f => f.decimals)).getD 2) + 1 / 2⌋).toNat == 0)
    | none => false
  else false

end SpreadsheetGrid

/-! ## DataGrid validator (src/src/components/DataGrid.tsx, first file) -/

namespace DataGrid

inductive ColumnType
  | date | text | number | currency | percent | enum
deriving DecidableEq

structure ColumnSpec where
  id : String
  name : String
  type : ColumnType
  required : Bool
  description : Option String := none
  enumValues : Option (List String) := none
deriving DecidableEq

/-- The DataGrid validator.  Its number branch parses the trimmed value with
no stripping; currency strips only dollar signs and commas; percent strips
only percent signs. -/
def validateCell (col : ColumnSpec) (raw : String) : Option String :=
  let v : String := ⟨jsTrim raw.data⟩
  if col.required && v.data.isEmpty then some "Required"
  else if v.data.isEmpty then none
  else
    match col.type with
    | .text => none
    | .number =>
      match parseJsNumber v.data with
      | none => some "Must be a number"
      | some _ => none
    | .currency =>
      match parseJsNumber (v.data.filter (fun c => !(c == '$' || c == ','))) with
      | none => some "Must be a currency amount"
      | some _ => none
    | .percent =>
      match parseJsNumber (v.data.filter (fun c => !(c == '%'))) with
      | none => some "Must be a percent"
      | some n => if n < -100 ∨ n > 1000 then some "Percent looks off" else none
    | .date =>
      match jsDateParse v.data with
      | none => some "Invalid date"
      | some _ => none
    | .enum =>
      let opts := col.enumValues.getD []
      if opts.isEmpty then some "Enum has no options"
      else if opts.contains v then none
      else some ("Must be one of: " ++ String.intercalate ", " opts)

end DataGrid

/-! ## Workbook shape management and persistence (src/unnamed/part_000) -/

namespace Workbook

structure WorkbookState where
  purpose : String
  columns : List ColumnDef
  cells : List (List String)
  rowCount : ℕ
deriving DecidableEq

/-- makeDefaultColumns: untyped columns col_0.. named A, B, C… -/
def makeDefaultColumns (count : ℕ) : List ColumnDef :=
  (List.range count).map (fun i =>
    { id := "col_" ++ ⟨renderNat i⟩
      name := ⟨[Char.ofNat (65 + i)]⟩
      type := .untyped
      required := false })

/-- makeEmptyCells: a rows-by-cols matrix of empty strings. -/
def makeEmptyCells (rows cols : ℕ) : List (List String) :=
  List.replicate rows (List.replicate cols "")

/-- Defensive cell read: out-of-range positions read as the empty string
(the ?? "" pattern of the source). -/
def getCell (cells : List (List String)) (r c : ℕ) : String :=
  (((cells[r]?).getD [])[c]?).getD ""

/-- The cells-resize effect and the loadState normalization loop: rebuild a
rowCount-by-colCount matrix taking each position from the old matrix,
defaulting to the empty string. -/
def reshapeCells (rowCount colCount : ℕ) (cells : List (List String)) : List (List String) :=
  (List.range rowCount).map (fun r => (List.range colCount).map (fun c => getCell cells r c))

/-- A successfully JSON-parsed persisted blob: each field is present with
the right runtime type (some) or missing/mistyped (none). -/
structure ParsedBlob where
  purpose : Option String
  rowCount : Option ℕ
  columns : Option (List ColumnDef)
  cells : Option (List (List String))
deriving DecidableEq

/-- loadState: none models a missing raw value or a JSON.parse failure
(both return the defaults); a parsed blob is hydrated field by field. -/
def loadState (input : Option ParsedBlob) : WorkbookState :=
  match input with
  | none => ⟨"", makeDefaultColumns 12, makeEmptyCells 50 12, 50⟩
  | some parsed =>
    let rowCount := parsed.rowCount.getD 50
    let columns :=
      match parsed.columns with
      | some cs => if cs.isEmpty then makeDefaultColumns 12 else cs
      | none => makeDefaultColumns 12
    let colCount := columns.length
    let cells :=
      match parsed.cells with
      | some cs => if cs.isEmpty then makeEmptyCells rowCount colCount else cs
      | none => makeEmptyCells rowCount colCount
    ⟨parsed.purpose.getD "", columns, reshapeCells rowCount colCount cells, rowCount⟩

/-- The fill loop below the source row: overwrite rows whose cell trims
empty, stop at the first non-blank cell. -/
def fillDownSeg (source : String) (c : ℕ) : List (List String) → List (List String)
  | [] => []
  | row :: rest =>
    if (jsTrim (((row[c]?).getD "").data)).isEmpty then
      row.set c source :: fillDownSeg source c rest
    else row :: rest

/-- fillDownFromCell: no-op when the source cell trims empty, otherwise
copy it down through contiguous blank cells. -/
def fillDownFromCell (cells : List (List String)) (r c : ℕ) : List (List String) :=
  let source := getCell cells r c
  if (jsTrim source.data).isEmpty then cells
  else cells.take (r + 1) ++ fillDownSeg source c (cells.drop (r + 1))

/-- Number of leading rows of a segment whose cell at column c trims empty. -/
def fillStopSeg (c : ℕ) : List (List String) → ℕ
  | [] => 0
  | row :: rest =>
    if (jsTrim (((row[c]?).getD "").data)).isEmpty then fillStopSeg c rest + 1 else 0

/-- The first row index at or below which the fill stops: the first row
after r whose cell at column c is non-blank, or the row count. -/
def fillStop (cells : List (List String)) (r c : ℕ) : ℕ :=
  r + 1 + fillStopSeg c (cells.drop (r + 1))

end Workbook

/-! ## SchemaBuilder persistence (src/unnamed/part_001) -/

namespace SchemaBuilder

structure SavedState where
  prompt : String
  columns : Option (List DataGrid.ColumnSpec)
  rows : List (List (String × String))
deriving DecidableEq

structure SavedBlob where
  prompt : Option String
  columns : Option (List DataGrid.ColumnSpec)
  rows : Option (List (List (String × String)))
deriving DecidableEq

/-- loadSaved: none models a missing raw value or a JSON.parse failure;
a parsed blob is hydrated field by field. -/
def loadSaved (input : Option SavedBlob) : SavedState :=
  match input with
  | none => ⟨"", none, []⟩
  | some parsed => ⟨parsed.prompt.getD "", parsed.columns, parsed.rows.getD []⟩

end SchemaBuilder

/-! ## Concrete instances used in the claim theorems -/

def numberCol : ColumnDef := { id := "n", name := "N", type := .number, required := false }

def currencyCol : ColumnDef := { id := "c", name := "C", type := .currency, required := false }

def percentCol : ColumnDef := { id := "p", name := "P", type := .percent, required := false }

def textCol : ColumnDef := { id := "t", name := "T", type := .text, required := false }

def dateColIso : ColumnDef := { id := "d", name := "D", type := .date, required := false }

/-- A computed column marked required (reachable in the data model; the
panel only disables the checkbox). -/
def computedRequiredCol : ColumnDef :=
  { id := "cr", name := "CR", type := .computed, required := true }

def divideCol : ColumnDef :=
  { id := "q", name := "Q", type := .computed, required := false,
    computed := some ⟨.divide, ["a", "b"]⟩ }

def dateDiffCol : ColumnDef :=
  { id := "y", name := "Y", type := .computed, required := false,
    computed := some ⟨.date_diff_years, ["start", "finish"]⟩ }

def requiredNumberCol : ColumnDef :=
  { id := "rn", name := "RN", type := .number, required := true }

def dgNumberCol : DataGrid.ColumnSpec :=
  { id := "n", name := "N", type := .number, required := false }

def dgRequiredNumberCol : DataGrid.ColumnSpec :=
  { id := "rn", name := "RN", type := .number, required := true }

def dgCurrencyCol : DataGrid.ColumnSpec :=
  { id := "c", name := "C", type := .currency, required := false }

/-- A persisted blob carrying only a row count. -/
def rowCountOnlyBlob : Workbook.ParsedBlob := ⟨none, some 7, none, none⟩

/-- A 2-row, 5-column sample matrix for the reshape example. -/
def exCells5 : List (List String) :=
  [["a", "b", "c", "d", "e"], ["f", "g", "h", "i", "j"]]

/-! ## Digit and rendering lemmas -/

theorem digitVal_digitChar {n : ℕ} (h : n < 10) : digitVal (digitChar n) = n := by
  interval_cases n <;> rfl

theorem isDigitC_digitChar {n : ℕ} (h : n < 10) : isDigitC (digitChar n) = true := by
  interval_cases n <;> rfl

theorem isDigitC_cases {c : Char} (h : isDigitC c = true) :
    c = '0' ∨ c = '1' ∨ c = '2' ∨ c = '3' ∨ c = '4' ∨
    c = '5' ∨ c = '6' ∨ c = '7' ∨ c = '8' ∨ c = '9' := by
  simp only [isDigitC, Bool.or_eq_true, beq_iff_eq] at h
  tauto

/-- Character-class facts about decimal digits used to push rendered strings
through trim, strip and the parser's sign and separator tests. -/
theorem digit_char_class {c : Char} (h : isDigitC c = true) :
    isWSChar c = false ∧ SpreadsheetGrid.isNumJunk c = false ∧
    c ≠ '-' ∧ c ≠ '+' ∧ c ≠ '.' ∧ c ≠ '/' ∧ c ≠ 'e' ∧ c ≠ 'E' := by
  rcases isDigitC_cases h with h | h | h | h | h | h | h | h | h | h <;> subst h <;> decide

theorem ofDigitsList_nil : ofDigitsList [] = 0 := rfl

theorem ofDigitsList_concat (l : List Char) (c : Char) :
    ofDigitsList (l ++ [c]) = 10 * ofDigitsList l + digitVal c := by
  simp [ofDigitsList, List.foldl_append]

theorem ofDigitsList_cons_zero (l : List Char) :
    ofDigitsList ('0' :: l) = ofDigitsList l := rfl

theorem ofDigitsList_replicate_zero (k : ℕ) (l : List Char) :
    ofDigitsList (List.replicate k '0' ++ l) = ofDigitsList l := by
  induction k with
  | zero => rfl
  | succ k ih => simpa [List.replicate_succ] using ih

theorem renderNatAux_ne_nil {fuel n : ℕ} (h : 0 < fuel) : renderNatAux fuel n ≠ [] := by
  match fuel with
  | fuel + 1 =>
    rw [renderNatAux]
    split <;> simp

theorem renderNatAux_digits : ∀ fuel n, ∀ c ∈ renderNatAux fuel n, isDigitC c = true := by
  intro fuel
  induction fuel with
  | zero => intro n c hc; simp [renderNatAux] at hc
  | succ fuel ih =>
    intro n c hc
    rw [renderNatAux] at hc
    split at hc
    · next h10 =>
      rw [List.mem_singleton] at hc
      subst hc
      exact isDigitC_digitChar h10
    · rcases List.mem_append.mp hc with h | h
      · exact ih _ c h
      · rw [List.mem_singleton] at h
        subst h
        exact isDigitC_digitChar (Nat.mod_lt _ (by norm_num))

theorem ofDigits_renderNatAux : ∀ fuel n, n < 10 ^ fuel →
    ofDigitsList (renderNatAux fuel n) = n := by
  intro fuel
  induction fuel with
  | zero => intro n h; interval_cases n; rfl
  | succ fuel ih =>
    intro n h
    rw [renderNatAux]
    split
    · next h10 =>
      show 10 * 0 + digitVal (digitChar n) = n
      rw [digitVal_digitChar h10]
      omega
    · next h10 =>
      push_neg at h10
      rw [ofDigitsList_concat, ih (n / 10) ?_, digitVal_digitChar (Nat.mod_lt _ (by norm_num))]
      · exact Nat.div_add_mod n 10
      · rw [Nat.div_lt_iff_lt_mul (by norm_num)]
        calc n < 10 ^ (fuel + 1) := h
        _ = 10 ^ fuel * 10 := by ring

theorem renderNatAux_length : ∀ fuel n, 0 < fuel → n < 10 ^ fuel →
    (renderNatAux fuel n).length ≤ fuel := by
  intro fuel
  induction fuel with
  | zero => omega
  | succ fuel ih =>
    intro n _ h
    rw [renderNatAux]
    split
    · simp
    · next h10 =>
      push_neg at h10
      have hdiv : n / 10 < 10 ^ fuel := by
        rw [Nat.div_lt_iff_lt_mul (by norm_num)]
        calc n < 10 ^ (fuel + 1) := h
        _ = 10 ^ fuel * 10 := by ring
      have hfuel : 0 < fuel := by
        by_contra hf
        push_neg at hf
        interval_cases fuel
        simp at hdiv
        omega
      have := ih (n / 10) hfuel hdiv
      simp only [List.length_append, List.length_singleton]
      omega

theorem renderNatAux_fuel_irrel : ∀ f1 f2 n, 0 < f1 → 0 < f2 →
    n < 10 ^ f1 → n < 10 ^ f2 → renderNatAux f1 n = renderNatAux f2 n := by
  intro f1
  induction f1 with
  | zero => omega
  | succ f1 ih =>
    intro f2 n _ hf2 h1 h2
    match f2 with
    | f2 + 1 =>
      rw [renderNatAux, renderNatAux]
      split
      · rfl
      · next h10 =>
        push_neg at h10
        have hd1 : n / 10 < 10 ^ f1 := by
          rw [Nat.div_lt_iff_lt_mul (by norm_num)]
          calc n < 10 ^ (f1 + 1) := h1
          _ = 10 ^ f1 * 10 := by ring
        have hd2 : n / 10 < 10 ^ f2 := by
          rw [Nat.div_lt_iff_lt_mul (by norm_num)]
          calc n < 10 ^ (f2 + 1) := h2
          _ = 10 ^ f2 * 10 := by ring
        have hp1 : 0 < f1 := by
          by_contra hf
          push_neg at hf
          interval_cases f1
          simp at hd1
          omega
        have hp2 : 0 < f2 := by
          by_contra hf
          push_neg at hf
          interval_cases f2
          simp at hd2
          omega
        rw [ih f2 (n / 10) hp1 hp2 hd1 hd2]

theorem lt_ten_pow_self (n : ℕ) : n < 10 ^ (n + 1) := by
  calc n < 2 ^ n := Nat.lt_two_pow n
  _ ≤ 10 ^ n := Nat.pow_le_pow_left (by norm_num) n
  _ ≤ 10 ^ (n + 1) := Nat.pow_le_pow_right (by norm_num) (by omega)

theorem renderNat_eq_aux {f n : ℕ} (hf : 0 < f) (h : n < 10 ^ f) :
    renderNat n = renderNatAux f n :=
  renderNatAux_fuel_irrel (n + 1) f n (by omega) hf (lt_ten_pow_self n) h

theorem ofDigits_renderNat (n : ℕ) : ofDigitsList (renderNat n) = n :=
  ofDigits_renderNatAux (n + 1) n (lt_ten_pow_self n)

theorem renderNat_digits (n : ℕ) : ∀ c ∈ renderNat n, isDigitC c = true :=
  renderNatAux_digits (n + 1) n

theorem renderNat_ne_nil (n : ℕ) : renderNat n ≠ [] :=
  renderNatAux_ne_nil (by omega)

theorem renderNat_length_le {n d : ℕ} (hd : 0 < d) (h : n < 10 ^ d) :
    (renderNat n).length ≤ d := by
  rw [renderNat_eq_aux hd h]
  exact renderNatAux_length d n hd h

/-! ## Trim, filter and split lemmas -/

theorem dropWhile_eq_self_of_none {p : Char → Bool} {l : List Char}
    (h : ∀ c ∈ l, p c = false) : l.dropWhile p = l := by
  cases l with
  | nil => rfl
  | cons c t =>
    rw [List.dropWhile_cons, h c (by simp)]
    simp

theorem jsTrim_eq_self {l : List Char} (h : ∀ c ∈ l, isWSChar c = false) :
    jsTrim l = l := by
  unfold jsTrim
  rw [dropWhile_eq_self_of_none h, dropWhile_eq_self_of_none (by simpa using h),
    List.reverse_reverse]

theorem dropWhile_head_false {p : Char → Bool} :
    ∀ l : List Char, ∀ c, (l.dropWhile p).head? = some c → p c = false := by
  intro l
  induction l with
  | nil => intro c hc; simp at hc
  | cons x t ih =>
    intro c hc
    rw [List.dropWhile_cons] at hc
    by_cases hx : p x = true
    · rw [if_pos hx] at hc
      exact ih c hc
    · rw [if_neg hx] at hc
      simp at hc
      subst hc
      simpa using hx

theorem dropWhile_eq_self_of_head {p : Char → Bool} {l : List Char}
    (h : ∀ c, l.head? = some c → p c = false) : l.dropWhile p = l := by
  cases l with
  | nil => rfl
  | cons c t =>
    rw [List.dropWhile_cons, h c rfl]
    simp

theorem dropWhile_getLast? {p : Char → Bool} :
    ∀ l : List Char, l.dropWhile p ≠ [] → (l.dropWhile p).getLast? = l.getLast? := by
  intro l
  induction l with
  | nil => intro h; simp at h
  | cons x t ih =>
    intro h
    rw [List.dropWhile_cons]
    by_cases hx : p x = true
    · rw [List.dropWhile_cons, if_pos hx] at h
      have ht : t ≠ [] := by
        intro he
        subst he
        simp at h
      rw [if_pos hx, ih h]
      cases t with
      | nil => exact absurd rfl ht
      | cons y u => rw [List.getLast?_cons_cons]
    · rw [if_neg hx]

theorem jsTrim_idem (l : List Char) : jsTrim (jsTrim l) = jsTrim l := by
  by_cases hnil : jsTrim l = []
  · rw [hnil]
    rfl
  · have hBnil : (l.dropWhile isWSChar).reverse.dropWhile isWSChar ≠ [] := by
      intro he
      apply hnil
      show ((l.dropWhile isWSChar).reverse.dropWhile isWSChar).reverse = []
      rw [he]
      rfl
    have hstep1 : (jsTrim l).dropWhile isWSChar = jsTrim l := by
      apply dropWhile_eq_self_of_head
      intro c hc
      rw [show jsTrim l = ((l.dropWhile isWSChar).reverse.dropWhile isWSChar).reverse from rfl,
        List.head?_reverse] at hc
      rw [dropWhile_getLast? (l.dropWhile isWSChar).reverse hBnil, List.getLast?_reverse] at hc
      exact dropWhile_head_false l c hc
    show (((jsTrim l).dropWhile isWSChar).reverse.dropWhile isWSChar).reverse = jsTrim l
    rw [hstep1]
    have hstep2 : (jsTrim l).reverse.dropWhile isWSChar = (jsTrim l).reverse := by
      apply dropWhile_eq_self_of_head
      intro c hc
      rw [show jsTrim l = ((l.dropWhile isWSChar).reverse.dropWhile isWSChar).reverse from rfl,
        List.reverse_reverse] at hc
      exact dropWhile_head_false (l.dropWhile isWSChar).reverse c hc
    rw [hstep2, List.reverse_reverse]

theorem takeWhile_all {p : Char → Bool} {l : List Char}
    (h : ∀ c ∈ l, p c = true) : l.takeWhile p = l := by
  induction l with
  | nil => rfl
  | cons c t ih =>
    rw [List.takeWhile_cons, h c (by simp)]
    simp only [ite_true]
    rw [ih (fun x hx => h x (by simp [hx]))]

theorem dropWhile_all {p : Char → Bool} {l : List Char}
    (h : ∀ c ∈ l, p c = true) : l.dropWhile p = [] := by
  induction l with
  | nil => rfl
  | cons c t ih =>
    rw [List.dropWhile_cons, h c (by simp)]
    simp only [ite_true]
    exact ih (fun x hx => h x (by simp [hx]))

theorem takeWhile_append_stop {p : Char → Bool} {a b : List Char} {x : Char}
    (ha : ∀ c ∈ a, p c = true) (hx : p x = false) :
    (a ++ x :: b).takeWhile p = a := by
  induction a with
  | nil => simpa [List.takeWhile_cons] using hx
  | cons c t ih =>
    rw [List.cons_append, List.takeWhile_cons, ha c (by simp)]
    simp only [ite_true]
    rw [ih (fun y hy => ha y (by simp [hy]))]

theorem dropWhile_append_stop {p : Char → Bool} {a b : List Char} {x : Char}
    (ha : ∀ c ∈ a, p c = true) (hx : p x = false) :
    (a ++ x :: b).dropWhile p = x :: b := by
  induction a with
  | nil => simp [List.dropWhile_cons, hx]
  | cons c t ih =>
    rw [List.cons_append, List.dropWhile_cons, ha c (by simp)]
    simp only [ite_true]
    exact ih (fun y hy => ha y (by simp [hy]))

theorem splitOnC_no_sep {sep : Char} {l : List Char}
    (h : ∀ c ∈ l, c ≠ sep) : splitOnC sep l = [l] := by
  induction l with
  | nil => rfl
  | cons c t ih =>
    rw [splitOnC]
    simp only [ih (fun x hx => h x (by simp [hx]))]
    rw [if_neg (h c (by simp))]

theorem splitOnC_append {sep : Char} {a b : List Char}
    (ha : ∀ c ∈ a, c ≠ sep) : splitOnC sep (a ++ sep :: b) = a :: splitOnC sep b := by
  induction a with
  | nil =>
    rw [List.nil_append, splitOnC, if_pos rfl]
  | cons c t ih =>
    rw [List.cons_append, splitOnC]
    simp only [ih (fun x hx => ha x (by simp [hx]))]
    rw [if_neg (ha c (by simp))]

/-! ## Parser round-trip lemmas -/

theorem isEmpty_false_of_ne_nil {l : List Char} (h : l ≠ []) : l.isEmpty = false := by
  cases l with
  | nil => exact absurd rfl h
  | cons c t => rfl

theorem parseUnsigned_digits {l : List Char} (hne : l ≠ [])
    (hd : ∀ c ∈ l, isDigitC c = true) :
    parseUnsignedNum l = some ((ofDigitsList l : ℚ)) := by
  simp only [parseUnsignedNum]
  rw [takeWhile_all hd, dropWhile_all hd]
  show (if l.isEmpty then none
    else match parseExpPart [] with
      | none => none
      | some mult => some ((ofDigitsList l : ℚ) * mult)) = some ((ofDigitsList l : ℚ))
  rw [isEmpty_false_of_ne_nil hne]
  show some ((ofDigitsList l : ℚ) * 1) = some ((ofDigitsList l : ℚ))
  rw [mul_one]

theorem parseUnsigned_point {a b : List Char} (ha : a ≠ [])
    (hda : ∀ c ∈ a, isDigitC c = true) (hdb : ∀ c ∈ b, isDigitC c = true) :
    parseUnsignedNum (a ++ '.' :: b) =
      some ((ofDigitsList a : ℚ) + (ofDigitsList b : ℚ) / 10 ^ b.length) := by
  simp only [parseUnsignedNum]
  rw [takeWhile_append_stop hda (by decide), dropWhile_append_stop hda (by decide)]
  show (let fracD := b.takeWhile isDigitC
    let rest2 := b.dropWhile isDigitC
    if a.isEmpty && fracD.isEmpty then none
    else match parseExpPart rest2 with
      | none => none
      | some mult =>
        some (((ofDigitsList a : ℚ) + (ofDigitsList fracD : ℚ) / 10 ^ fracD.length) * mult)) = _
  rw [takeWhile_all hdb, dropWhile_all hdb]
  show (if a.isEmpty && b.isEmpty then none
    else match parseExpPart [] with
      | none => none
      | some mult =>
        some (((ofDigitsList a : ℚ) + (ofDigitsList b : ℚ) / 10 ^ b.length) * mult)) = _
  rw [isEmpty_false_of_ne_nil ha, Bool.false_and]
  show some (((ofDigitsList a : ℚ) + (ofDigitsList b : ℚ) / 10 ^ b.length) * 1) = _
  rw [mul_one]

namespace SpreadsheetGrid

theorem padZeros_digits (d m : ℕ) : ∀ c ∈ padZeros d m, isDigitC c = true := by
  intro c hc
  rcases List.mem_append.mp hc with h | h
  · rw [List.eq_of_mem_replicate h]
    rfl
  · exact renderNat_digits m c h

theorem padZeros_length {d m : ℕ} (hd : 0 < d) (hm : m < 10 ^ d) :
    (padZeros d m).length = d := by
  have := renderNat_length_le hd hm
  simp only [padZeros, List.length_append, List.length_replicate]
  omega

theorem ofDigits_padZeros (d m : ℕ) : ofDigitsList (padZeros d m) = m := by
  rw [padZeros, ofDigitsList_replicate_zero, ofDigits_renderNat]

theorem renderFixed_digits_or_point {n d : ℕ} :
    ∀ c ∈ renderFixed n d, isDigitC c = true ∨ c = '.' := by
  intro c hc
  rw [renderFixed] at hc
  split at hc
  · exact Or.inl (renderNat_digits n c hc)
  · rcases List.mem_append.mp hc with h | h
    · exact Or.inl (renderNat_digits _ c h)
    · rcases List.mem_cons.mp h with h | h
      · exact Or.inr h
      · exact Or.inl (padZeros_digits _ _ c h)

theorem renderFixed_class {n d : ℕ} :
    ∀ c ∈ renderFixed n d, isWSChar c = false ∧ isNumJunk c = false := by
  intro c hc
  rcases renderFixed_digits_or_point c hc with h | h
  · exact ⟨(digit_char_class h).1, (digit_char_class h).2.1⟩
  · subst h
    exact ⟨rfl, rfl⟩

theorem renderFixed_ne_nil (n d : ℕ) : renderFixed n d ≠ [] := by
  rw [renderFixed]
  split
  · exact renderNat_ne_nil n
  · intro h
    exact renderNat_ne_nil (n / 10 ^ d) (List.append_eq_nil.mp h).1

theorem renderFixed_head (n d : ℕ) :
    ∃ c t, renderFixed n d = c :: t ∧ isDigitC c = true := by
  rw [renderFixed]
  split
  · cases hrn : renderNat n with
    | nil => exact absurd hrn (renderNat_ne_nil n)
    | cons c t =>
      exact ⟨c, t, rfl, renderNat_digits n c (by rw [hrn]; simp)⟩
  · cases hrn : renderNat (n / 10 ^ d) with
    | nil => exact absurd hrn (renderNat_ne_nil _)
    | cons c t =>
      refine ⟨c, t ++ '.' :: padZeros d (n % 10 ^ d), rfl, ?_⟩
      exact renderNat_digits _ c (by rw [hrn]; simp)

theorem parseUnsigned_renderFixed (n d : ℕ) :
    parseUnsignedNum (renderFixed n d) = some ((n : ℚ) / 10 ^ d) := by
  by_cases hd : d = 0
  · subst hd
    rw [renderFixed, if_pos rfl, parseUnsigned_digits (renderNat_ne_nil n) (renderNat_digits n),
      ofDigits_renderNat]
    norm_num
  · have hd0 : 0 < d := Nat.pos_of_ne_zero hd
    have hmod : n % 10 ^ d < 10 ^ d := Nat.mod_lt _ (Nat.pos_pow_of_pos d (by norm_num))
    rw [renderFixed, if_neg hd,
      parseUnsigned_point (renderNat_ne_nil _) (renderNat_digits _) (padZeros_digits d _),
      ofDigits_renderNat, ofDigits_padZeros, padZeros_length hd0 hmod]
    congr 1
    have hpow : ((10 : ℚ) ^ d) ≠ 0 := by positivity
    rw [eq_div_iff hpow, add_mul, div_mul_cancel₀ _ hpow]
    have key : 10 ^ d * (n / 10 ^ d) + n % 10 ^ d = n := Nat.div_add_mod n (10 ^ d)
    have keyq := congrArg (fun m : ℕ => (m : ℚ)) key
    push_cast at keyq
    linarith

theorem parseJsNumber_renderFixed (n d : ℕ) :
    parseJsNumber (renderFixed n d) = some ((n : ℚ) / 10 ^ d) := by
  obtain ⟨c, t, hct, hc⟩ := renderFixed_head n d
  rw [hct, parseJsNumber, if_neg (digit_char_class hc).2.2.1,
    if_neg (digit_char_class hc).2.2.2.1, ← hct, parseUnsigned_renderFixed]

theorem floor_nat_add_half (n : ℕ) : ⌊(n : ℚ) + 1 / 2⌋ = (n : ℤ) := by
  have h0 : ⌊(1 / 2 : ℚ)⌋ = 0 := by decide
  rw [show ((n : ℚ) + 1 / 2) = ((n : ℤ) : ℚ) + 1 / 2 by push_cast; ring,
    Int.floor_int_add, h0, add_zero]

theorem toNumberLike_of_clean {l : List Char} (hne : l ≠ [])
    (hcl : ∀ c ∈ l, isWSChar c = false ∧ isNumJunk c = false) :
    toNumberLike ⟨l⟩ = parseJsNumber l := by
  show (if (jsTrim l).isEmpty then none
    else parseJsNumber ((jsTrim l).filter (fun c => !isNumJunk c))) = parseJsNumber l
  rw [jsTrim_eq_self (fun c hc => (hcl c hc).1), isEmpty_false_of_ne_nil hne]
  simp only [Bool.false_eq_true, if_false]
  congr 1
  exact List.filter_eq_self.mpr (fun c hc => by simp [(hcl c hc).2])

theorem toFixed_class (q : ℚ) (d : ℕ) :
    ∀ c ∈ toFixed q d, isWSChar c = false ∧ isNumJunk c = false := by
  intro c hc
  rw [toFixed] at hc
  split at hc
  · rcases List.mem_cons.mp hc with h | h
    · subst h
      exact ⟨rfl, rfl⟩
    · exact renderFixed_class c h
  · exact renderFixed_class c hc

theorem toFixed_ne_nil (q : ℚ) (d : ℕ) : toFixed q d ≠ [] := by
  rw [toFixed]
  split
  · simp
  · exact renderFixed_ne_nil _ _

theorem formatNumber_roundtrip (q : ℚ) (d : ℕ)
    (hnz : ¬(q < 0 ∧ (⌊-q * 10 ^ d + 1 / 2⌋).toNat = 0)) :
    ∃ q2, toNumberLike (formatNumber q d) = some q2 ∧
      formatNumber q2 d = formatNumber q d := by
  have hparse : toNumberLike (formatNumber q d) = parseJsNumber (toFixed q d) :=
    toNumberLike_of_clean (toFixed_ne_nil q d) (toFixed_class q d)
  have hpow : ((10 : ℚ) ^ d) ≠ 0 := by positivity
  by_cases hq : q < 0
  · have hn0 : (⌊-q * 10 ^ d + 1 / 2⌋).toNat ≠ 0 := fun h => hnz ⟨hq, h⟩
    refine ⟨-(((⌊-q * 10 ^ d + 1 / 2⌋).toNat : ℚ) / 10 ^ d), ?_, ?_⟩
    · rw [hparse, toFixed, if_pos hq]
      show parseJsNumber ('-' :: renderFixed (⌊-q * 10 ^ d + 1 / 2⌋).toNat d) = _
      rw [parseJsNumber, if_pos rfl, parseUnsigned_renderFixed]
      rfl
    · have hpos : (0 : ℚ) < ((⌊-q * 10 ^ d + 1 / 2⌋).toNat : ℚ) / 10 ^ d := by
        apply div_pos
        · exact_mod_cast Nat.pos_of_ne_zero hn0
        · positivity
      rw [formatNumber, formatNumber, toFixed, toFixed, if_pos hq, if_pos (by linarith)]
      congr 2
      rw [neg_neg, div_mul_cancel₀ _ hpow, floor_nat_add_half, Int.toNat_natCast]
  · have hfl : 0 ≤ ⌊q * 10 ^ d + 1 / 2⌋ := by
      apply Int.le_floor.mpr
      push_neg at hq
      push_cast
      nlinarith [pow_pos (show (0:ℚ) < 10 by norm_num) d]
    refine ⟨((⌊q * 10 ^ d + 1 / 2⌋).toNat : ℚ) / 10 ^ d, ?_, ?_⟩
    · rw [hparse, toFixed, if_neg hq, parseJsNumber_renderFixed]
    · have hge : (0 : ℚ) ≤ ((⌊q * 10 ^ d + 1 / 2⌋).toNat : ℚ) / 10 ^ d := by positivity
      rw [formatNumber, formatNumber, toFixed, toFixed, if_neg hq, if_neg (by linarith)]
      congr 2
      rw [div_mul_cancel₀ _ hpow, floor_nat_add_half, Int.toNat_natCast]

theorem formatNumber_pct_roundtrip (q : ℚ) (d : ℕ)
    (hnz : ¬(q < 0 ∧ (⌊-q * 10 ^ d + 1 / 2⌋).toNat = 0)) :
    ∃ q2, toNumberLike (formatNumber q d ++ "%") = some q2 ∧
      formatNumber q2 d = formatNumber q d := by
  obtain ⟨q2, h1, h2⟩ := formatNumber_roundtrip q d hnz
  refine ⟨q2, ?_, h2⟩
  have hclean : ∀ c ∈ toFixed q d ++ ['%'], isWSChar c = false ∧ isNumJunk c = false ∨ c = '%' := by
    intro c hc
    rcases List.mem_append.mp hc with h | h
    · exact Or.inl (toFixed_class q d c h)
    · rcases List.mem_cons.mp h with h | h
      · exact Or.inr h
      · simp at h
  show (if (jsTrim (toFixed q d ++ ['%'])).isEmpty then none
    else parseJsNumber ((jsTrim (toFixed q d ++ ['%'])).filter (fun c => !isNumJunk c))) = some q2
  have hws : ∀ c ∈ toFixed q d ++ ['%'], isWSChar c = false := by
    intro c hc
    rcases hclean c hc with h | h
    · exact h.1
    · subst h
      rfl
  rw [jsTrim_eq_self hws, isEmpty_false_of_ne_nil (by simp), List.filter_append]
  simp only [Bool.false_eq_true, if_false]
  rw [List.filter_eq_self.mpr (fun c hc => by simp [(toFixed_class q d c hc).2]),
    show List.filter (fun c => !isNumJunk c) ['%'] = [] from rfl, List.append_nil]
  have hof := toNumberLike_of_clean (toFixed_ne_nil q d) (toFixed_class q d)
  rw [← hof]
  exact h1

end SpreadsheetGrid

/-! ## Date round-trip lemmas -/

namespace SpreadsheetGrid

theorem pad2_digits (n : ℕ) : ∀ c ∈ pad2 n, isDigitC c = true := by
  intro c hc
  rw [pad2] at hc
  split at hc
  · rcases List.mem_cons.mp hc with h | h
    · subst h
      rfl
    · exact renderNat_digits n c h
  · exact renderNat_digits n c hc

theorem pad2_ne_nil (n : ℕ) : pad2 n ≠ [] := by
  rw [pad2]
  split
  · simp
  · exact renderNat_ne_nil n

theorem ofDigits_pad2 (n : ℕ) : ofDigitsList (pad2 n) = n := by
  rw [pad2]
  split
  · rw [ofDigitsList_cons_zero, ofDigits_renderNat]
  · exact ofDigits_renderNat n

end SpreadsheetGrid

theorem mkValidDate_digits {as bs cs : List Char} (ha : as ≠ []) (hb : bs ≠ []) (hc : cs ≠ [])
    (hda : ∀ c ∈ as, isDigitC c = true) (hdb : ∀ c ∈ bs, isDigitC c = true)
    (hdc : ∀ c ∈ cs, isDigitC c = true)
    (hrange : 1 ≤ ofDigitsList bs ∧ ofDigitsList bs ≤ 12 ∧ 1 ≤ ofDigitsList cs ∧
      ofDigitsList cs ≤ daysInMonth (ofDigitsList as) (ofDigitsList bs)) :
    mkValidDate as bs cs = some ⟨ofDigitsList as, ofDigitsList bs, ofDigitsList cs⟩ := by
  rw [mkValidDate, isEmpty_false_of_ne_nil ha, isEmpty_false_of_ne_nil hb,
    isEmpty_false_of_ne_nil hc]
  simp only [Bool.or_self, Bool.false_or, Bool.false_eq_true, if_false]
  rw [List.all_eq_true.mpr hda, List.all_eq_true.mpr hdb, List.all_eq_true.mpr hdc]
  simp only [Bool.and_self, Bool.not_true, Bool.false_eq_true, if_false]
  rw [if_pos hrange]

theorem mkValidDate_ranges {ys ms ds : List Char} {dt : CalDate}
    (h : mkValidDate ys ms ds = some dt) :
    1 ≤ dt.month ∧ dt.month ≤ 12 ∧ 1 ≤ dt.day ∧ dt.day ≤ daysInMonth dt.year dt.month := by
  rw [mkValidDate] at h
  split at h
  · exact absurd h (by simp)
  · split at h
    · exact absurd h (by simp)
    · replace h : (if 1 ≤ ofDigitsList ms ∧ ofDigitsList ms ≤ 12 ∧ 1 ≤ ofDigitsList ds ∧
          ofDigitsList ds ≤ daysInMonth (ofDigitsList ys) (ofDigitsList ms) then
          some (⟨ofDigitsList ys, ofDigitsList ms, ofDigitsList ds⟩ : CalDate)
          else none) = some dt := h
      split at h
      · next hr =>
        rw [Option.some_inj] at h
        subst h
        exact hr
      · exact absurd h (by simp)

theorem jsDateParse_ranges {l : List Char} {dt : CalDate} (h : jsDateParse l = some dt) :
    1 ≤ dt.month ∧ dt.month ≤ 12 ∧ 1 ≤ dt.day ∧ dt.day ≤ daysInMonth dt.year dt.month := by
  rw [jsDateParse] at h
  split at h
  · exact mkValidDate_ranges h
  · split at h
    · exact mkValidDate_ranges h
    · exact absurd h (by simp)

theorem toDateLike_ranges {s : String} {dt : CalDate}
    (h : SpreadsheetGrid.toDateLike s = some dt) :
    1 ≤ dt.month ∧ dt.month ≤ 12 ∧ 1 ≤ dt.day ∧ dt.day ≤ daysInMonth dt.year dt.month := by
  rw [SpreadsheetGrid.toDateLike] at h
  split at h
  · exact absurd h (by simp)
  · exact jsDateParse_ranges h

namespace SpreadsheetGrid

theorem formatDate_clean {dt : CalDate} (fmt : DateFormat) :
    ∀ c ∈ (formatDate dt fmt).data, isWSChar c = false := by
  intro c hc
  cases fmt with
  | iso =>
    replace hc : c ∈ renderNat dt.year ++ '-' :: (pad2 dt.month ++ '-' :: pad2 dt.day) := hc
    rcases List.mem_append.mp hc with h | h
    · exact (digit_char_class (renderNat_digits _ c h)).1
    · rcases List.mem_cons.mp h with h | h
      · subst h
        rfl
      · rcases List.mem_append.mp h with h | h
        · exact (digit_char_class (pad2_digits _ c h)).1
        · rcases List.mem_cons.mp h with h | h
          · subst h
            rfl
          · exact (digit_char_class (pad2_digits _ c h)).1
  | mdy =>
    replace hc : c ∈ renderNat dt.month ++ '/' :: (renderNat dt.day ++ '/' :: renderNat dt.year) :=
      hc
    rcases List.mem_append.mp hc with h | h
    · exact (digit_char_class (renderNat_digits _ c h)).1
    · rcases List.mem_cons.mp h with h | h
      · subst h
        rfl
      · rcases List.mem_append.mp h with h | h
        · exact (digit_char_class (renderNat_digits _ c h)).1
        · rcases List.mem_cons.mp h with h | h
          · subst h
            rfl
          · exact (digit_char_class (renderNat_digits _ c h)).1

theorem formatDate_data_ne_nil (dt : CalDate) (fmt : DateFormat) :
    (formatDate dt fmt).data ≠ [] := by
  cases fmt with
  | iso =>
    show renderNat dt.year ++ '-' :: (pad2 dt.month ++ '-' :: pad2 dt.day) ≠ []
    simp
  | mdy =>
    show renderNat dt.month ++ '/' :: (renderNat dt.day ++ '/' :: renderNat dt.year) ≠ []
    simp

theorem jsDateParse_formatDate {dt : CalDate}
    (h1 : 1 ≤ dt.month) (h2 : dt.month ≤ 12) (h3 : 1 ≤ dt.day)
    (h4 : dt.day ≤ daysInMonth dt.year dt.month) (fmt : DateFormat) :
    jsDateParse (formatDate dt fmt).data = some dt := by
  cases fmt with
  | iso =>
    show jsDateParse (renderNat dt.year ++ '-' :: (pad2 dt.month ++ '-' :: pad2 dt.day)) = some dt
    rw [jsDateParse,
      splitOnC_append (fun c hc => (digit_char_class (renderNat_digits _ c hc)).2.2.1),
      splitOnC_append (fun c hc => (digit_char_class (pad2_digits _ c hc)).2.2.1),
      splitOnC_no_sep (fun c hc => (digit_char_class (pad2_digits _ c hc)).2.2.1)]
    show mkValidDate (renderNat dt.year) (pad2 dt.month) (pad2 dt.day) = some dt
    rw [mkValidDate_digits (renderNat_ne_nil _) (pad2_ne_nil _) (pad2_ne_nil _)
      (renderNat_digits _) (pad2_digits _) (pad2_digits _)
      (by rw [ofDigits_pad2, ofDigits_pad2, ofDigits_renderNat]; exact ⟨h1, h2, h3, h4⟩)]
    rw [ofDigits_renderNat, ofDigits_pad2, ofDigits_pad2]
  | mdy =>
    show jsDateParse (renderNat dt.month ++ '/' :: (renderNat dt.day ++ '/' :: renderNat dt.year))
      = some dt
    have hnodash : ∀ c ∈ renderNat dt.month ++ '/' :: (renderNat dt.day ++ '/' :: renderNat dt.year),
        c ≠ '-' := by
      intro c hc
      rcases List.mem_append.mp hc with h | h
      · exact (digit_char_class (renderNat_digits _ c h)).2.2.1
      · rcases List.mem_cons.mp h with h | h
        · subst h
          decide
        · rcases List.mem_append.mp h with h | h
          · exact (digit_char_class (renderNat_digits _ c h)).2.2.1
          · rcases List.mem_cons.mp h with h | h
            · subst h
              decide
            · exact (digit_char_class (renderNat_digits _ c h)).2.2.1
    rw [jsDateParse, splitOnC_no_sep hnodash]
    show (match splitOnC '/' (renderNat dt.month ++ '/' ::
        (renderNat dt.day ++ '/' :: renderNat dt.year)) with
      | [ms, ds, ys] => mkValidDate ys ms ds
      | _ => none) = some dt
    rw [splitOnC_append (fun c hc => (digit_char_class (renderNat_digits _ c hc)).2.2.2.2.2.1),
      splitOnC_append (fun c hc => (digit_char_class (renderNat_digits _ c hc)).2.2.2.2.2.1),
      splitOnC_no_sep (fun c hc => (digit_char_class (renderNat_digits _ c hc)).2.2.2.2.2.1)]
    show mkValidDate (renderNat dt.year) (renderNat dt.month) (renderNat dt.day) = some dt
    rw [mkValidDate_digits (renderNat_ne_nil _) (renderNat_ne_nil _) (renderNat_ne_nil _)
      (renderNat_digits _) (renderNat_digits _) (renderNat_digits _)
      (by rw [ofDigits_renderNat, ofDigits_renderNat, ofDigits_renderNat]
          exact ⟨h1, h2, h3, h4⟩)]
    rw [ofDigits_renderNat, ofDigits_renderNat, ofDigits_renderNat]

theorem toDateLike_formatDate {dt : CalDate}
    (h1 : 1 ≤ dt.month) (h2 : dt.month ≤ 12) (h3 : 1 ≤ dt.day)
    (h4 : dt.day ≤ daysInMonth dt.year dt.month) (fmt : DateFormat) :
    toDateLike (formatDate dt fmt) = some dt := by
  rw [toDateLike]
  show (if (jsTrim (formatDate dt fmt).data).isEmpty then none
    else jsDateParse (jsTrim (formatDate dt fmt).data)) = some dt
  rw [jsTrim_eq_self (formatDate_clean fmt),
    isEmpty_false_of_ne_nil (formatDate_data_ne_nil dt fmt)]
  simp only [Bool.false_eq_true, if_false]
  exact jsDateParse_formatDate h1 h2 h3 h4 fmt

theorem toNumberLike_trim (s : String) : toNumberLike ⟨jsTrim s.data⟩ = toNumberLike s := by
  show (if (jsTrim (jsTrim s.data)).isEmpty then none
    else parseJsNumber ((jsTrim (jsTrim s.data)).filter (fun c => !isNumJunk c))) =
    (if (jsTrim s.data).isEmpty then none
    else parseJsNumber ((jsTrim s.data).filter (fun c => !isNumJunk c)))
  rw [jsTrim_idem]

theorem toDateLike_trim (s : String) : toDateLike ⟨jsTrim s.data⟩ = toDateLike s := by
  show (if (jsTrim (jsTrim s.data)).isEmpty then none
    else jsDateParse (jsTrim (jsTrim s.data))) =
    (if (jsTrim s.data).isEmpty then none else jsDateParse (jsTrim s.data))
  rw [jsTrim_idem]

end SpreadsheetGrid

/-! ## Evaluation lemmas for the SpreadsheetGrid validator -/

theorem validateCell_number_eval (col : ColumnDef) (raw : String)
    (ht : col.type = ColumnType.number) (hne : jsTrim raw.data ≠ []) :
    SpreadsheetGrid.validateCell col raw =
      match SpreadsheetGrid.toNumberLike raw with
      | none => some "Must be a number"
      | some _ => none := by
  cases htn : SpreadsheetGrid.toNumberLike raw with
  | none =>
    simp [SpreadsheetGrid.validateCell, ht, isEmpty_false_of_ne_nil hne,
      SpreadsheetGrid.toNumberLike_trim, htn]
  | some q =>
    simp [SpreadsheetGrid.validateCell, ht, isEmpty_false_of_ne_nil hne,
      SpreadsheetGrid.toNumberLike_trim, htn]

theorem validateCell_currency_eval (col : ColumnDef) (raw : String)
    (ht : col.type = ColumnType.currency) (hne : jsTrim raw.data ≠ []) :
    SpreadsheetGrid.validateCell col raw =
      match SpreadsheetGrid.toNumberLike raw with
      | none => some "Must be a currency amount"
      | some _ => none := by
  cases htn : SpreadsheetGrid.toNumberLike raw with
  | none =>
    simp [SpreadsheetGrid.validateCell, ht, isEmpty_false_of_ne_nil hne,
      SpreadsheetGrid.toNumberLike_trim, htn]
  | some q =>
    simp [SpreadsheetGrid.validateCell, ht, isEmpty_false_of_ne_nil hne,
      SpreadsheetGrid.toNumberLike_trim, htn]

/-! ## Claim C3 -/

/-- Claim C3 counterexample: a computed column with required set validates
the empty string as Valid (none), not Invalid "Required". -/
theorem validate_required_computed_cex :
    computedRequiredCol.required = true ∧
    SpreadsheetGrid.validateCell computedRequiredCol "" = none ∧
    ¬ SpreadsheetGrid.validateCell computedRequiredCol "" = some "Required" := by
  refine ⟨rfl, ?_, ?_⟩ <;> decide

/-- Claim C3 (amended): for required columns the empty value is Invalid
"Required" except for computed and untyped columns, which are always Valid
regardless of required; for required=false the empty value is always Valid;
the DataGrid validator (whose column types include neither computed nor
untyped) satisfies the original claim for all its types. -/
theorem validate_required_amended :
    (∀ col : ColumnDef, col.required = true → col.type ≠ ColumnType.computed →
      col.type ≠ ColumnType.untyped → SpreadsheetGrid.validateCell col "" = some "Required")
    ∧ (∀ col : ColumnDef, col.required = false → SpreadsheetGrid.validateCell col "" = none)
    ∧ (∀ (col : ColumnDef) (raw : String),
      col.type = ColumnType.computed ∨ col.type = ColumnType.untyped →
      SpreadsheetGrid.validateCell col raw = none)
    ∧ (∀ col : DataGrid.ColumnSpec, col.required = true →
      DataGrid.validateCell col "" = some "Required")
    ∧ (∀ col : DataGrid.ColumnSpec, col.required = false →
      DataGrid.validateCell col "" = none) := by
  refine ⟨?_, ?_, ?_, ?_, ?_⟩
  · intro col h hc hu
    unfold SpreadsheetGrid.validateCell
    rw [if_neg hc, if_neg hu, h]
    rfl
  · intro col h
    unfold SpreadsheetGrid.validateCell
    by_cases hc : col.type = ColumnType.computed
    · rw [if_pos hc]
    · rw [if_neg hc]
      by_cases hu : col.type = ColumnType.untyped
      · rw [if_pos hu]
      · rw [if_neg hu, h]
        rfl
  · intro col raw h
    unfold SpreadsheetGrid.validateCell
    rcases h with h | h
    · rw [if_pos h]
    · by_cases hc : col.type = ColumnType.computed
      · rw [if_pos hc]
      · rw [if_neg hc, if_pos h]
  · intro col h
    unfold DataGrid.validateCell
    rw [h]
    rfl
  · intro col h
    unfold DataGrid.validateCell
    rw [h]
    rfl

/-- Witness for the amended C3 theorem at concrete columns. -/
theorem validate_required_amended_witness :
    SpreadsheetGrid.validateCell requiredNumberCol "" = some "Required" ∧
    SpreadsheetGrid.validateCell numberCol "" = none ∧
    SpreadsheetGrid.validateCell computedRequiredCol "xyz" = none ∧
    DataGrid.validateCell dgRequiredNumberCol "" = some "Required" ∧
    DataGrid.validateCell dgNumberCol "" = none :=
  ⟨validate_required_amended.1 requiredNumberCol rfl (by decide) (by decide),
   validate_required_amended.2.1 numberCol rfl,
   validate_required_amended.2.2.1 computedRequiredCol "xyz" (Or.inl rfl),
   validate_required_amended.2.2.2.1 dgRequiredNumberCol rfl,
   validate_required_amended.2.2.2.2 dgNumberCol rfl⟩

/-! ## Claim C4 -/

/-- Claim C4 counterexample: the DataGrid validator parses number cells with
no stripping, so "$1,000" is Invalid there, contradicting the claim that it
is Valid for both validators and both numeric types. -/
theorem validate_number_strip_cex :
    DataGrid.validateCell dgNumberCol "$1,000" = some "Must be a number" ∧
    ¬ DataGrid.validateCell dgNumberCol "$1,000" = none := by
  refine ⟨?_, ?_⟩ <;> decide

/-- Claim C4 (amended): in the SpreadsheetGrid validator, number and
currency cells are Valid exactly when the permissive strip-and-parse
(toNumberLike) succeeds, with reasons "Must be a number" / "Must be a
currency amount" otherwise, and "$1,000", "1000", "  1000  " are all Valid
for both types; in the DataGrid validator the number branch parses without
stripping (so "$1,000" is Invalid there, though "1000" and "  1000  "
remain Valid) while its currency branch strips only dollar signs and
commas, which still accepts all three sample strings. -/
theorem validate_numeric_strip_amended :
    (∀ (col : ColumnDef) (raw : String), col.type = ColumnType.number →
      jsTrim raw.data ≠ [] →
      SpreadsheetGrid.validateCell col raw =
        match SpreadsheetGrid.toNumberLike raw with
        | none => some "Must be a number"
        | some _ => none)
    ∧ (∀ (col : ColumnDef) (raw : String), col.type = ColumnType.currency →
      jsTrim raw.data ≠ [] →
      SpreadsheetGrid.validateCell col raw =
        match SpreadsheetGrid.toNumberLike raw with
        | none => some "Must be a currency amount"
        | some _ => none)
    ∧ SpreadsheetGrid.validateCell numberCol "$1,000" = none
    ∧ SpreadsheetGrid.validateCell numberCol "1000" = none
    ∧ SpreadsheetGrid.validateCell numberCol "  1000  " = none
    ∧ SpreadsheetGrid.validateCell numberCol "abc" = some "Must be a number"
    ∧ SpreadsheetGrid.validateCell currencyCol "$1,000" = none
    ∧ SpreadsheetGrid.validateCell currencyCol "1000" = none
    ∧ SpreadsheetGrid.validateCell currencyCol "  1000  " = none
    ∧ SpreadsheetGrid.validateCell currencyCol "abc" = some "Must be a currency amount"
    ∧ DataGrid.validateCell dgCurrencyCol "$1,000" = none
    ∧ DataGrid.validateCell dgCurrencyCol "1000" = none
    ∧ DataGrid.validateCell dgCurrencyCol "  1000  " = none
    ∧ DataGrid.validateCell dgNumberCol "1000" = none
    ∧ DataGrid.validateCell dgNumberCol "  1000  " = none := by
  refine ⟨validateCell_number_eval, validateCell_currency_eval, ?_, ?_, ?_, ?_, ?_, ?_, ?_, ?_,
    ?_, ?_, ?_, ?_, ?_⟩ <;> decide

/-- Witness for the amended C4 theorem at a concrete column and string. -/
theorem validate_numeric_strip_amended_witness :
    SpreadsheetGrid.validateCell numberCol "$2,5" =
      match SpreadsheetGrid.toNumberLike "$2,5" with
      | none => some "Must be a number"
      | some _ => none :=
  validate_numeric_strip_amended.1 numberCol "$2,5" rfl (by decide)

/-! ## Claim C8 -/

/-- Claim C8 counterexample: for a text column a whitespace-only input is
returned as the empty string, not unchanged. -/
theorem canonicalize_unchanged_cex :
    SpreadsheetGrid.applyFormattingOnBlur textCol " " = "" ∧
    ¬ SpreadsheetGrid.applyFormattingOnBlur textCol " " = " " := by
  refine ⟨?_, ?_⟩ <;> decide

/-- Claim C8 (amended): canonicalize maps every whitespace-only input (for
every column type) to the empty string; for inputs whose trim is non-empty
it returns the input unchanged whenever the numeric parse fails
(number/currency/percent) or the date parse fails (date), and always for
text, enum, untyped and computed columns. -/
theorem canonicalize_unchanged_amended :
    (∀ (col : ColumnDef) (raw : String), jsTrim raw.data = [] →
      SpreadsheetGrid.applyFormattingOnBlur col raw = "")
    ∧ (∀ (col : ColumnDef) (raw : String), jsTrim raw.data ≠ [] →
      (col.type = ColumnType.number ∨ col.type = ColumnType.currency ∨
        col.type = ColumnType.percent) →
      SpreadsheetGrid.toNumberLike raw = none →
      SpreadsheetGrid.applyFormattingOnBlur col raw = raw)
    ∧ (∀ (col : ColumnDef) (raw : String), jsTrim raw.data ≠ [] →
      col.type = ColumnType.date → SpreadsheetGrid.toDateLike raw = none →
      SpreadsheetGrid.applyFormattingOnBlur col raw = raw)
    ∧ (∀ (col : ColumnDef) (raw : String), jsTrim raw.data ≠ [] →
      (col.type = ColumnType.text ∨ col.type = ColumnType.enum ∨
        col.type = ColumnType.untyped ∨ col.type = ColumnType.computed) →
      SpreadsheetGrid.applyFormattingOnBlur col raw = raw) := by
  refine ⟨?_, ?_, ?_, ?_⟩
  · intro col raw h
    simp [SpreadsheetGrid.applyFormattingOnBlur, h]
  · intro col raw hne ht hn
    rcases ht with ht | ht | ht <;>
      simp [SpreadsheetGrid.applyFormattingOnBlur, ht, isEmpty_false_of_ne_nil hne,
        SpreadsheetGrid.toNumberLike_trim, hn]
  · intro col raw hne ht hd
    simp [SpreadsheetGrid.applyFormattingOnBlur, ht, isEmpty_false_of_ne_nil hne,
      SpreadsheetGrid.toDateLike_trim, hd]
  · intro col raw hne ht
    rcases ht with ht | ht | ht | ht <;>
      simp [SpreadsheetGrid.applyFormattingOnBlur, ht, isEmpty_false_of_ne_nil hne]

/-- Witness for the amended C8 theorem at concrete columns and strings. -/
theorem canonicalize_unchanged_amended_witness :
    SpreadsheetGrid.applyFormattingOnBlur textCol "hello" = "hello" ∧
    SpreadsheetGrid.applyFormattingOnBlur numberCol " abc " = " abc " ∧
    SpreadsheetGrid.applyFormattingOnBlur dateColIso "not a date" = "not a date" ∧
    SpreadsheetGrid.applyFormattingOnBlur percentCol "  " = "" :=
  ⟨canonicalize_unchanged_amended.2.2.2 textCol "hello" (by decide) (Or.inl rfl),
   canonicalize_unchanged_amended.2.1 numberCol " abc " (by decide) (Or.inl rfl) (by decide),
   canonicalize_unchanged_amended.2.2.1 dateColIso "not a date" (by decide) rfl (by decide),
   canonicalize_unchanged_amended.1 percentCol "  " (by decide)⟩

/-! ## Claim C10 -/

/-- Claim C10 (confirmed): fill-down decides emptiness on the trimmed
string: a whitespace-only source is a no-op, and a whitespace-only cell
below is overwritten and does not stop the fill. -/
theorem fillDown_trim_spec :
    (∀ (cells : List (List String)) (r c : ℕ),
      jsTrim (Workbook.getCell cells r c).data = [] →
      Workbook.fillDownFromCell cells r c = cells)
    ∧ Workbook.fillDownFromCell [["5"], [" "], [""], ["x"], [""]] 0 0 =
        [["5"], ["5"], ["5"], ["x"], [""]]
    ∧ Workbook.fillDownFromCell [[" "], [""]] 0 0 = [[" "], [""]] := by
  refine ⟨?_, ?_, ?_⟩
  · intro cells r c h
    simp [Workbook.fillDownFromCell, h]
  · decide
  · decide

/-- Witness for the C10 theorem: a whitespace-only source cell is a no-op. -/
theorem fillDown_trim_spec_witness :
    Workbook.fillDownFromCell [["a", " "], ["b", "c"]] 0 1 = [["a", " "], ["b", "c"]] :=
  fillDown_trim_spec.1 [["a", " "], ["b", "c"]] 0 1 (by decide)

/-! ## Claim C1 -/

/-- Every evaluator result has an empty value or no error. -/
theorem computeValue_value_or_error (col : ColumnDef) (row : List (String × String)) :
    (SpreadsheetGrid.computeValue col row).value = none ∨
    (SpreadsheetGrid.computeValue col row).error = none := by
  unfold SpreadsheetGrid.computeValue
  split
  · simp
  · dsimp only
    repeat' split
    all_goals simp

/-- The grid displays the empty string for a computed cell in error. -/
theorem computedDisplay_of_error (col : ColumnDef) (row : List (String × String))
    (herr : (SpreadsheetGrid.computeValue col row).error ≠ none) :
    SpreadsheetGrid.computedDisplay col row = "" := by
  cases he : (SpreadsheetGrid.computeValue col row).error with
  | none => exact absurd he herr
  | some e => simp [SpreadsheetGrid.computedDisplay, he]

/-- Claim C1 (confirmed): the evaluator applies the divide edge cases in the
stated order — missing spec, unset input ids, unparsable inputs, zero
divisor, then the quotient — and the stored value and the displayed value
are empty whenever any error is reported. -/
theorem computeValue_edge_case_order :
    ∀ (col : ColumnDef) (row : List (String × String)),
    (col.computed = none →
      SpreadsheetGrid.computeValue col row = ⟨none, some "Missing computed spec"⟩)
    ∧ (∀ spec : ComputedSpec, col.computed = some spec →
      ((spec.inputs.getD 0 "").data.isEmpty = true ∨ (spec.inputs.getD 1 "").data.isEmpty = true) →
      SpreadsheetGrid.computeValue col row = ⟨none, some "Select input columns"⟩)
    ∧ (∀ spec : ComputedSpec, col.computed = some spec → spec.kind = ComputedKind.divide →
      (spec.inputs.getD 0 "").data.isEmpty = false →
      (spec.inputs.getD 1 "").data.isEmpty = false →
      ((SpreadsheetGrid.toNumberLike
          ((SpreadsheetGrid.lookupById row (spec.inputs.getD 0 "")).getD "") = none ∨
        SpreadsheetGrid.toNumberLike
          ((SpreadsheetGrid.lookupById row (spec.inputs.getD 1 "")).getD "") = none) →
        SpreadsheetGrid.computeValue col row = ⟨none, some "Inputs must be numbers"⟩)
      ∧ (∀ a b : ℚ,
        SpreadsheetGrid.toNumberLike
          ((SpreadsheetGrid.lookupById row (spec.inputs.getD 0 "")).getD "") = some a →
        SpreadsheetGrid.toNumberLike
          ((SpreadsheetGrid.lookupById row (spec.inputs.getD 1 "")).getD "") = some b →
        (b = 0 → SpreadsheetGrid.computeValue col row = ⟨none, some "Divide by zero"⟩)
        ∧ (b ≠ 0 → SpreadsheetGrid.computeValue col row = ⟨some (a / b), none⟩)))
    ∧ ((SpreadsheetGrid.computeValue col row).error ≠ none →
      (SpreadsheetGrid.computeValue col row).value = none ∧
      SpreadsheetGrid.computedDisplay col row = "") := by
  intro col row
  refine ⟨?_, ?_, ?_, ?_⟩
  · intro h
    simp [SpreadsheetGrid.computeValue, h]
  · intro spec h hior
    rcases hior with h1 | h1 <;> simp at h1 <;> simp [SpreadsheetGrid.computeValue, h, h1]
  · intro spec h hk ha hb
    simp at ha hb
    constructor
    · intro hor
      rcases hor with h1 | h1
      · simp only [List.getD_eq_getElem?_getD] at h1
        simp [SpreadsheetGrid.computeValue, h, hk, ha, hb, h1]
      · simp only [List.getD_eq_getElem?_getD] at h1
        cases ha2 : SpreadsheetGrid.toNumberLike
            ((SpreadsheetGrid.lookupById row (spec.inputs[0]?.getD "")).getD "") <;>
          simp [SpreadsheetGrid.computeValue, h, hk, ha, hb, h1, ha2]
    · intro a b h1 h2
      simp only [List.getD_eq_getElem?_getD] at h1 h2
      constructor
      · intro hb0
        simp [SpreadsheetGrid.computeValue, h, hk, ha, hb, h1, h2, hb0]
      · intro hb0
        simp [SpreadsheetGrid.computeValue, h, hk, ha, hb, h1, h2, hb0]
  · intro herr
    refine ⟨?_, computedDisplay_of_error col row herr⟩
    rcases computeValue_value_or_error col row with h | h
    · exact h
    · exact absurd h herr

/-- Witness for the C1 theorem: the divide-by-zero sample from the spec. -/
theorem computeValue_edge_case_order_witness :
    SpreadsheetGrid.computeValue divideCol [("a", "10"), ("b", "0")] =
      ⟨none, some "Divide by zero"⟩ := by
  have h := ((computeValue_edge_case_order divideCol [("a", "10"), ("b", "0")]).2.2.1
    ⟨ComputedKind.divide, ["a", "b"]⟩ rfl rfl (by decide) (by decide)).2 10 0
    (by decide) (by decide)
  exact h.1 rfl

/-! ## Claim C7 -/

/-- Claim C7 (confirmed): date_diff_years reports "Inputs must be dates"
when either input fails the date parse, and otherwise yields the signed day
difference divided by 365.25; for 2020-01-01 to 2021-01-01 the value is
488/487, within 1/100 of 1. -/
theorem dateDiffYears_spec :
    (∀ (col : ColumnDef) (spec : ComputedSpec) (row : List (String × String)),
      col.computed = some spec → spec.kind = ComputedKind.date_diff_years →
      (spec.inputs.getD 0 "").data.isEmpty = false →
      (spec.inputs.getD 1 "").data.isEmpty = false →
      ((SpreadsheetGrid.toDateLike
          ((SpreadsheetGrid.lookupById row (spec.inputs.getD 0 "")).getD "") = none ∨
        SpreadsheetGrid.toDateLike
          ((SpreadsheetGrid.lookupById row (spec.inputs.getD 1 "")).getD "") = none) →
        SpreadsheetGrid.computeValue col row = ⟨none, some "Inputs must be dates"⟩)
      ∧ (∀ s e : CalDate,
        SpreadsheetGrid.toDateLike
          ((SpreadsheetGrid.lookupById row (spec.inputs.getD 0 "")).getD "") = some s →
        SpreadsheetGrid.toDateLike
          ((SpreadsheetGrid.lookupById row (spec.inputs.getD 1 "")).getD "") = some e →
        SpreadsheetGrid.computeValue col row =
          ⟨some (SpreadsheetGrid.dateDiffYears s e), none⟩))
    ∧ (∀ s e : CalDate, SpreadsheetGrid.dateDiffYears s e =
        (((daysFromCivil e : ℤ) - (daysFromCivil s : ℤ) : ℤ) : ℚ) / 365.25)
    ∧ (∀ s e : CalDate, daysFromCivil e < daysFromCivil s →
        SpreadsheetGrid.dateDiffYears s e < 0)
    ∧ SpreadsheetGrid.computeValue dateDiffCol
        [("start", "2020-01-01"), ("finish", "2021-01-01")] = ⟨some (488/487), none⟩
    ∧ |((488 : ℚ)/487) - 1| ≤ 1/100 := by
  have hform : ∀ s e : CalDate, SpreadsheetGrid.dateDiffYears s e =
      (((daysFromCivil e : ℤ) - (daysFromCivil s : ℤ) : ℤ) : ℚ) / 365.25 := by
    intro s e
    unfold SpreadsheetGrid.dateDiffYears SpreadsheetGrid.msPerDay
    have h1 : (1000 * 60 * 60 * 24 : ℚ) ≠ 0 := by norm_num
    have h2 : (365.25 : ℚ) ≠ 0 := by norm_num
    field_simp
    ring
  refine ⟨?_, hform, ?_, ?_, ?_⟩
  · intro col spec row h hk ha hb
    simp at ha hb
    constructor
    · intro hor
      rcases hor with h1 | h1
      · simp only [List.getD_eq_getElem?_getD] at h1
        simp [SpreadsheetGrid.computeValue, h, hk, ha, hb, h1]
      · simp only [List.getD_eq_getElem?_getD] at h1
        cases ha2 : SpreadsheetGrid.toDateLike
            ((SpreadsheetGrid.lookupById row (spec.inputs[0]?.getD "")).getD "") <;>
          simp [SpreadsheetGrid.computeValue, h, hk, ha, hb, h1, ha2]
    · intro s e h1 h2
      simp only [List.getD_eq_getElem?_getD] at h1 h2
      simp [SpreadsheetGrid.computeValue, h, hk, ha, hb, h1, h2]
  · intro s e hlt
    rw [hform]
    apply div_neg_of_neg_of_pos
    · have : ((daysFromCivil e : ℤ) - (daysFromCivil s : ℤ)) < 0 := by
        omega
      exact_mod_cast this
    · norm_num
  · decide
  · decide

/-- Witness for the C7 theorem: error and success cases at concrete rows. -/
theorem dateDiffYears_spec_witness :
    SpreadsheetGrid.computeValue dateDiffCol
      [("start", "2020-01-01"), ("finish", "not a date")] =
      ⟨none, some "Inputs must be dates"⟩ ∧
    SpreadsheetGrid.computeValue dateDiffCol
      [("start", "2020-01-01"), ("finish", "2021-01-01")] =
      ⟨some (SpreadsheetGrid.dateDiffYears ⟨2020, 1, 1⟩ ⟨2021, 1, 1⟩), none⟩ := by
  constructor
  · exact (dateDiffYears_spec.1 dateDiffCol ⟨ComputedKind.date_diff_years, ["start", "finish"]⟩
      [("start", "2020-01-01"), ("finish", "not a date")] rfl rfl (by decide) (by decide)).1
      (Or.inr (by decide))
  · exact (dateDiffYears_spec.1 dateDiffCol ⟨ComputedKind.date_diff_years, ["start", "finish"]⟩
      [("start", "2020-01-01"), ("finish", "2021-01-01")] rfl rfl (by decide) (by decide)).2
      ⟨2020, 1, 1⟩ ⟨2021, 1, 1⟩ (by decide) (by decide)

/-! ## Reshape lemmas and claim C5 -/

namespace Workbook

theorem getCell_oob_row {cells : List (List String)} {r c : ℕ} (h : cells.length ≤ r) :
    getCell cells r c = "" := by
  unfold getCell
  rw [List.getElem?_eq_none h]
  rfl

theorem getCell_oob_col {cells : List (List String)} {r c : ℕ}
    (h : ((cells[r]?).getD []).length ≤ c) : getCell cells r c = "" := by
  unfold getCell
  rw [List.getElem?_eq_none h]
  rfl

theorem getCell_reshape (m n : ℕ) (cells : List (List String)) (r c : ℕ) :
    getCell (reshapeCells m n cells) r c =
      if r < m ∧ c < n then getCell cells r c else "" := by
  by_cases hr : r < m
  · by_cases hc : c < n
    · rw [if_pos ⟨hr, hc⟩]
      show ((((List.range m).map fun r => (List.range n).map fun c =>
        getCell cells r c)[r]?).getD [])[c]?.getD "" = getCell cells r c
      rw [List.getElem?_map, List.getElem?_range hr]
      show (((List.range n).map fun c => getCell cells r c)[c]?).getD "" = getCell cells r c
      rw [List.getElem?_map, List.getElem?_range hc]
      rfl
    · rw [if_neg (fun h => hc h.2)]
      show ((((List.range m).map fun r => (List.range n).map fun c =>
        getCell cells r c)[r]?).getD [])[c]?.getD "" = ""
      rw [List.getElem?_map, List.getElem?_range hr]
      show (((List.range n).map fun c => getCell cells r c)[c]?).getD "" = ""
      rw [List.getElem?_eq_none (by simp; omega)]
      rfl
  · rw [if_neg (fun h => hr h.1)]
    apply getCell_oob_row
    show ((List.range m).map fun r => (List.range n).map fun c => getCell cells r c).length ≤ r
    simp
    omega

theorem reshapeCells_length (m n : ℕ) (cells : List (List String)) :
    (reshapeCells m n cells).length = m := by
  unfold reshapeCells
  simp

theorem reshapeCells_row_length (m n : ℕ) (cells : List (List String)) :
    ∀ row ∈ reshapeCells m n cells, row.length = n := by
  intro row hrow
  unfold reshapeCells at hrow
  rcases List.mem_map.mp hrow with ⟨r, _, hmap⟩
  rw [← hmap]
  simp

end Workbook

/-- Claim C5 (confirmed): reshaping on a row- or column-count change builds
a matrix of exactly (rowCount, columnCount); positions present in both the
old and new shape keep their old value, newly created positions read as the
empty string, and positions dropped by shrinking stay empty after growing
back. -/
theorem reshape_preserves_spec :
    (∀ (m n : ℕ) (cells : List (List String)),
      (Workbook.reshapeCells m n cells).length = m)
    ∧ (∀ (m n : ℕ) (cells : List (List String)) (row : List String),
      row ∈ Workbook.reshapeCells m n cells → row.length = n)
    ∧ (∀ (m n : ℕ) (cells : List (List String)) (r c : ℕ), r < m → c < n →
      Workbook.getCell (Workbook.reshapeCells m n cells) r c = Workbook.getCell cells r c)
    ∧ (∀ (m n : ℕ) (cells : List (List String)) (r c : ℕ),
      cells.length ≤ r ∨ ((cells[r]?).getD []).length ≤ c →
      Workbook.getCell (Workbook.reshapeCells m n cells) r c = "")
    ∧ (∀ (m k n : ℕ) (cells : List (List String)) (r c : ℕ), k ≤ c →
      Workbook.getCell (Workbook.reshapeCells m n (Workbook.reshapeCells m k cells)) r c
        = "") := by
  refine ⟨Workbook.reshapeCells_length, Workbook.reshapeCells_row_length, ?_, ?_, ?_⟩
  · intro m n cells r c hr hc
    rw [Workbook.getCell_reshape, if_pos ⟨hr, hc⟩]
  · intro m n cells r c hoob
    rw [Workbook.getCell_reshape]
    rcases hoob with h | h
    · rcases Decidable.em (r < m ∧ c < n) with hin | hin
      · rw [if_pos hin, Workbook.getCell_oob_row h]
      · rw [if_neg hin]
    · rcases Decidable.em (r < m ∧ c < n) with hin | hin
      · rw [if_pos hin, Workbook.getCell_oob_col h]
      · rw [if_neg hin]
  · intro m k n cells r c hk
    rw [Workbook.getCell_reshape]
    rcases Decidable.em (r < m ∧ c < n) with hin | hin
    · rw [if_pos hin, Workbook.getCell_reshape, if_neg (fun h => by omega)]
    · rw [if_neg hin]

/-- Witness for the C5 theorem: the spec's shrink-to-3/grow-to-5 example. -/
theorem reshape_preserves_spec_witness :
    Workbook.getCell (Workbook.reshapeCells 2 5 (Workbook.reshapeCells 2 3 exCells5)) 0 3
      = "" ∧
    Workbook.getCell (Workbook.reshapeCells 2 3 exCells5) 0 2 =
      Workbook.getCell exCells5 0 2 ∧
    (Workbook.reshapeCells 2 3 exCells5).length = 2 :=
  ⟨reshape_preserves_spec.2.2.2.2 2 3 5 exCells5 0 3 (by omega),
   reshape_preserves_spec.2.2.1 2 3 exCells5 0 2 (by omega) (by omega),
   reshape_preserves_spec.1 2 3 exCells5⟩

/-! ## Claim C9 -/

/-- Claim C9 counterexample: a persisted blob carrying only a row count
hydrates into a state that is neither the wholesale defaults nor entirely
persisted: the row count is taken from the blob while purpose and columns
are per-field defaults. -/
theorem loadState_wholesale_cex :
    ¬ Workbook.loadState (some rowCountOnlyBlob) = Workbook.loadState none ∧
    (Workbook.loadState (some rowCountOnlyBlob)).rowCount = 7 ∧
    (Workbook.loadState (some rowCountOnlyBlob)).purpose = "" ∧
    (Workbook.loadState (some rowCountOnlyBlob)).columns = Workbook.makeDefaultColumns 12 := by
  refine ⟨?_, ?_, ?_, ?_⟩ <;> decide

/-- Claim C9 (amended): only a missing raw value or a JSON parse failure
falls back to the defaults wholesale; a blob that parses as JSON is
hydrated field by field, each missing or mistyped field replaced by its own
default, and the loaded cell matrix is always normalized to rowCount by
column-count; the SchemaBuilder loader behaves the same way per field. -/
theorem loadState_per_field_amended :
    Workbook.loadState none =
      ⟨"", Workbook.makeDefaultColumns 12, Workbook.makeEmptyCells 50 12, 50⟩
    ∧ (∀ b : Workbook.ParsedBlob,
      (Workbook.loadState (some b)).purpose = b.purpose.getD "")
    ∧ (∀ b : Workbook.ParsedBlob,
      (Workbook.loadState (some b)).rowCount = b.rowCount.getD 50)
    ∧ (∀ b : Workbook.ParsedBlob, b.columns = none →
      (Workbook.loadState (some b)).columns = Workbook.makeDefaultColumns 12)
    ∧ (∀ (b : Workbook.ParsedBlob) (cs : List ColumnDef), b.columns = some cs → cs ≠ [] →
      (Workbook.loadState (some b)).columns = cs)
    ∧ (∀ b : Workbook.ParsedBlob,
      (Workbook.loadState (some b)).cells.length = (Workbook.loadState (some b)).rowCount
      ∧ ∀ row ∈ (Workbook.loadState (some b)).cells,
        row.length = (Workbook.loadState (some b)).columns.length)
    ∧ SchemaBuilder.loadSaved none = ⟨"", none, []⟩
    ∧ (∀ s : SchemaBuilder.SavedBlob,
      (SchemaBuilder.loadSaved (some s)).prompt = s.prompt.getD "")
    ∧ (∀ s : SchemaBuilder.SavedBlob,
      (SchemaBuilder.loadSaved (some s)).columns = s.columns)
    ∧ (∀ s : SchemaBuilder.SavedBlob,
      (SchemaBuilder.loadSaved (some s)).rows = s.rows.getD []) := by
  refine ⟨rfl, fun b => rfl, fun b => rfl, ?_, ?_, ?_, rfl, fun s => rfl, fun s => rfl,
    fun s => rfl⟩
  · intro b h
    simp [Workbook.loadState, h]
  · intro b cs h hne
    simp [Workbook.loadState, h, hne]
  · intro b
    constructor
    · exact Workbook.reshapeCells_length _ _ _
    · intro row hrow
      exact Workbook.reshapeCells_row_length _ _ _ row hrow

/-- Witness for the amended C9 theorem at a concrete blob. -/
theorem loadState_per_field_amended_witness :
    (Workbook.loadState (some rowCountOnlyBlob)).columns = Workbook.makeDefaultColumns 12 ∧
    (Workbook.loadState (some ⟨some "hi", none, some [numberCol], none⟩)).columns =
      [numberCol] :=
  ⟨loadState_per_field_amended.2.2.2.1 rowCountOnlyBlob rfl,
   loadState_per_field_amended.2.2.2.2.1 ⟨some "hi", none, some [numberCol], none⟩
     [numberCol] rfl (by decide)⟩

/-! ## Fill-down lemmas and claim C6 -/

theorem eq_nil_of_isEmpty {l : List Char} (h : l.isEmpty = true) : l = [] := by
  cases l with
  | nil => rfl
  | cons c t => simp [List.isEmpty] at h

namespace Workbook

theorem fillDownSeg_getElem? (src : String) (c : ℕ) :
    ∀ (rows : List (List String)) (i : ℕ),
    (fillDownSeg src c rows)[i]? =
      if i < fillStopSeg c rows then (rows[i]?).map (fun row => row.set c src)
      else rows[i]? := by
  intro rows
  induction rows with
  | nil => intro i; simp [fillDownSeg, fillStopSeg]
  | cons row rest ih =>
    intro i
    rw [fillDownSeg, fillStopSeg]
    by_cases hb : (jsTrim (((row[c]?).getD "").data)).isEmpty = true
    · rw [if_pos hb, if_pos hb]
      cases i with
      | zero => simp
      | succ j =>
        simp only [List.getElem?_cons_succ]
        rw [ih j]
        by_cases hj : j < fillStopSeg c rest
        · rw [if_pos hj, if_pos (by omega)]
        · rw [if_neg hj, if_neg (by omega)]
    · rw [if_neg hb, if_neg hb]
      rw [if_neg (by omega)]

theorem fillStopSeg_le (c : ℕ) :
    ∀ rows : List (List String), fillStopSeg c rows ≤ rows.length := by
  intro rows
  induction rows with
  | nil => simp [fillStopSeg]
  | cons row rest ih =>
    rw [fillStopSeg]
    split
    · simpa using ih
    · simp

theorem fillStopSeg_blank (c : ℕ) :
    ∀ (rows : List (List String)) (j : ℕ), j < fillStopSeg c rows →
    jsTrim ((((rows[j]?).getD [])[c]?).getD "").data = [] := by
  intro rows
  induction rows with
  | nil => intro j h; simp [fillStopSeg] at h
  | cons row rest ih =>
    intro j h
    rw [fillStopSeg] at h
    by_cases hb : (jsTrim (((row[c]?).getD "").data)).isEmpty = true
    · rw [if_pos hb] at h
      cases j with
      | zero =>
        simpa using eq_nil_of_isEmpty hb
      | succ jj =>
        simp only [List.getElem?_cons_succ]
        exact ih jj (by omega)
    · rw [if_neg hb] at h
      omega

theorem fillStopSeg_stop (c : ℕ) :
    ∀ rows : List (List String), fillStopSeg c rows < rows.length →
    ¬ jsTrim ((((rows[fillStopSeg c rows]?).getD [])[c]?).getD "").data = [] := by
  intro rows
  induction rows with
  | nil => intro h; simp [fillStopSeg] at h
  | cons row rest ih =>
    intro h
    rw [fillStopSeg]
    by_cases hb : (jsTrim (((row[c]?).getD "").data)).isEmpty = true
    · rw [if_pos hb]
      rw [fillStopSeg, if_pos hb] at h
      simp only [List.getElem?_cons_succ]
      exact ih (by simpa using Nat.lt_of_succ_lt_succ h)
    · rw [if_neg hb]
      simp only [List.getElem?_cons_zero, Option.getD_some]
      intro he
      rw [he] at hb
      simp at hb

theorem fillStop_le (cells : List (List String)) (r c : ℕ) (hr : r < cells.length) :
    fillStop cells r c ≤ cells.length := by
  unfold fillStop
  have := fillStopSeg_le c (cells.drop (r + 1))
  rw [List.length_drop] at this
  omega

theorem fillDown_getElem? (cells : List (List String)) (r c : ℕ)
    (hsrc : jsTrim (getCell cells r c).data ≠ []) (i : ℕ) :
    (fillDownFromCell cells r c)[i]? =
      if r < i ∧ i < fillStop cells r c
      then (cells[i]?).map (fun row => row.set c (getCell cells r c))
      else cells[i]? := by
  have hr : r < cells.length := by
    by_contra hrlen
    push_neg at hrlen
    exact hsrc (by rw [getCell_oob_row hrlen]; rfl)
  have hlen : (cells.take (r + 1)).length = r + 1 := by
    rw [List.length_take]
    omega
  have hfde : fillDownFromCell cells r c =
      cells.take (r + 1) ++ fillDownSeg (getCell cells r c) c (cells.drop (r + 1)) := by
    simp only [fillDownFromCell]
    rw [isEmpty_false_of_ne_nil hsrc]
    simp
  rw [hfde, List.getElem?_append]
  by_cases hi : i ≤ r
  · rw [if_pos (by omega), List.getElem?_take_of_lt (by omega), if_neg (by omega)]
  · push_neg at hi
    rw [if_neg (by omega), hlen, fillDownSeg_getElem?, List.getElem?_drop]
    have hidx : r + 1 + (i - (r + 1)) = i := by omega
    rw [hidx]
    unfold fillStop
    by_cases hstop : i - (r + 1) < fillStopSeg c (cells.drop (r + 1))
    · rw [if_pos hstop, if_pos (by omega)]
    · rw [if_neg hstop, if_neg (by omega)]

end Workbook

/-- Claim C6 (confirmed): fill-down from a non-blank source copies the
source value into exactly the contiguous blank cells below it in the same
column, stopping at the first non-blank cell or the end of the matrix, and
leaves every other position unchanged; a blank source is a no-op; the
spec's five-row example evaluates as stated. -/
theorem fillDown_spec :
    (∀ (cells : List (List String)) (w r c : ℕ),
      (∀ row ∈ cells, row.length = w) → c < w →
      ∀ i j : ℕ,
      Workbook.getCell (Workbook.fillDownFromCell cells r c) i j =
        if jsTrim (Workbook.getCell cells r c).data ≠ [] ∧ j = c ∧ r < i ∧
            i < Workbook.fillStop cells r c
        then Workbook.getCell cells r c
        else Workbook.getCell cells i j)
    ∧ (∀ (cells : List (List String)) (r c i : ℕ), r < i →
      i < Workbook.fillStop cells r c → jsTrim (Workbook.getCell cells i c).data = [])
    ∧ (∀ (cells : List (List String)) (r c : ℕ),
      Workbook.fillStop cells r c < cells.length →
      ¬ jsTrim (Workbook.getCell cells (Workbook.fillStop cells r c) c).data = [])
    ∧ Workbook.fillDownFromCell [["5"], [""], [""], ["3"], [""]] 0 0 =
        [["5"], ["5"], ["5"], ["3"], [""]] := by
  refine ⟨?_, ?_, ?_, ?_⟩
  · intro cells w r c hw hc i j
    by_cases hsrc : jsTrim (Workbook.getCell cells r c).data = []
    · rw [show Workbook.fillDownFromCell cells r c = cells by
        simp [Workbook.fillDownFromCell, hsrc]]
      rw [if_neg (fun hcon => hcon.1 hsrc)]
    · have hrow := Workbook.fillDown_getElem? cells r c hsrc i
      have hr : r < cells.length := by
        by_contra hrlen
        push_neg at hrlen
        exact hsrc (by rw [Workbook.getCell_oob_row hrlen]; rfl)
      show (((Workbook.fillDownFromCell cells r c)[i]?).getD [])[j]?.getD "" = _
      rw [hrow]
      by_cases hif : r < i ∧ i < Workbook.fillStop cells r c
      · rw [if_pos hif]
        cases hcell : cells[i]? with
        | none =>
          have hstople := Workbook.fillStop_le cells r c hr
          have : i < cells.length := by omega
          rw [List.getElem?_eq_none_iff] at hcell
          omega
        | some row =>
          have hrowlen : row.length = w := hw row (List.getElem?_mem hcell)
          simp only [Option.map_some', Option.getD_some]
          rw [List.getElem?_set]
          by_cases hj : j = c
          · rw [if_pos hj.symm, if_pos (by omega)]
            rw [if_pos ⟨hsrc, hj, hif.1, hif.2⟩]
            rfl
          · rw [if_neg (fun he => hj he.symm), if_neg (fun hcon => hj hcon.2.1)]
            show row[j]?.getD "" = Workbook.getCell cells i j
            unfold Workbook.getCell
            rw [hcell]
            rfl
      · rw [if_neg hif, if_neg (fun hcon => hif ⟨hcon.2.2.1, hcon.2.2.2⟩)]
        rfl
  · intro cells r c i hri histop
    unfold Workbook.fillStop at histop
    have hj := Workbook.fillStopSeg_blank c (cells.drop (r + 1)) (i - (r + 1)) (by omega)
    rw [List.getElem?_drop] at hj
    have hidx : r + 1 + (i - (r + 1)) = i := by omega
    rw [hidx] at hj
    exact hj
  · intro cells r c hlt
    have hseg : Workbook.fillStopSeg c (cells.drop (r + 1)) < (cells.drop (r + 1)).length := by
      rw [List.length_drop]
      unfold Workbook.fillStop at hlt
      omega
    have hstop := Workbook.fillStopSeg_stop c (cells.drop (r + 1)) hseg
    rw [List.getElem?_drop] at hstop
    exact hstop
  · decide

/-- Witness for the C6 theorem: the characterization evaluated inside the
spec example. -/
theorem fillDown_spec_witness :
    Workbook.getCell (Workbook.fillDownFromCell [["5"], [""], [""], ["3"], [""]] 0 0) 2 0
      = "5" := by
  have h := fillDown_spec.1 [["5"], [""], [""], ["3"], [""]] 1 0 0 (by decide) (by decide) 2 0
  rw [h]
  decide

/-! ## Claim C2 -/

/-- Claim C2 counterexample: canonicalize is not idempotent on the code: a
number column maps "-0.001" to "-0.00" (toFixed keeps the sign of a
negative value that rounds to zero), and a second pass reparses "-0.00" as
zero and renders "0.00". -/
theorem canonicalize_idem_cex :
    SpreadsheetGrid.applyFormattingOnBlur numberCol
        (SpreadsheetGrid.applyFormattingOnBlur numberCol "-0.001") ≠
      SpreadsheetGrid.applyFormattingOnBlur numberCol "-0.001" ∧
    SpreadsheetGrid.applyFormattingOnBlur numberCol "-0.001" = "-0.00" ∧
    SpreadsheetGrid.applyFormattingOnBlur numberCol "-0.00" = "0.00" := by
  refine ⟨?_, ?_, ?_⟩ <;> decide

/-- Claim C2 (amended): canonicalize is idempotent for every column and
every input except the numeric-typed inputs that parse to a negative value
rounding to zero at the column's decimal count (negZeroRounds), whose first
canonical form "-0.00…" reparses to zero and re-renders as "0.00…". -/
theorem canonicalize_idem_amended :
    ∀ (col : ColumnDef) (v : String), SpreadsheetGrid.negZeroRounds col v = false →
    SpreadsheetGrid.applyFormattingOnBlur col (SpreadsheetGrid.applyFormattingOnBlur col v) =
      SpreadsheetGrid.applyFormattingOnBlur col v := by
  intro col v hnz
  by_cases hemp : jsTrim v.data = []
  · have h1 : SpreadsheetGrid.applyFormattingOnBlur col v = "" := by
      simp [SpreadsheetGrid.applyFormattingOnBlur, hemp]
    rw [h1]
    simp [SpreadsheetGrid.applyFormattingOnBlur, show jsTrim [] = [] from rfl]
  · cases htype : col.type with
    | text =>
      have h1 : SpreadsheetGrid.applyFormattingOnBlur col v = v := by
        simp [SpreadsheetGrid.applyFormattingOnBlur, htype, isEmpty_false_of_ne_nil hemp]
      rw [h1]
      exact h1
    | enum =>
      have h1 : SpreadsheetGrid.applyFormattingOnBlur col v = v := by
        simp [SpreadsheetGrid.applyFormattingOnBlur, htype, isEmpty_false_of_ne_nil hemp]
      rw [h1]
      exact h1
    | untyped =>
      have h1 : SpreadsheetGrid.applyFormattingOnBlur col v = v := by
        simp [SpreadsheetGrid.applyFormattingOnBlur, htype, isEmpty_false_of_ne_nil hemp]
      rw [h1]
      exact h1
    | computed =>
      have h1 : SpreadsheetGrid.applyFormattingOnBlur col v = v := by
        simp [SpreadsheetGrid.applyFormattingOnBlur, htype, isEmpty_false_of_ne_nil hemp]
      rw [h1]
      exact h1
    | number =>
      cases hn : SpreadsheetGrid.toNumberLike v with
      | none =>
        have h1 : SpreadsheetGrid.applyFormattingOnBlur col v = v := by
          simp [SpreadsheetGrid.applyFormattingOnBlur, htype, isEmpty_false_of_ne_nil hemp,
            SpreadsheetGrid.toNumberLike_trim, hn]
        rw [h1]
        exact h1
      | some q =>
        have h1 : SpreadsheetGrid.applyFormattingOnBlur col v =
            SpreadsheetGrid.formatNumber q ((col.format.bind (fun f => f.decimals)).getD 2) := by
          simp [SpreadsheetGrid.applyFormattingOnBlur, htype, isEmpty_false_of_ne_nil hemp,
            SpreadsheetGrid.toNumberLike_trim, hn]
        have hnz2 : ¬(q < 0 ∧
            (⌊-q * 10 ^ ((col.format.bind (fun f => f.decimals)).getD 2) + 1 / 2⌋).toNat = 0) := by
          rintro ⟨hq, h0⟩
          have h0f : ⌊-(q * 10 ^ ((col.format.bind (fun f => f.decimals)).getD 2)) + 2⁻¹⌋
              ≤ 0 := by
            rw [show (-(q * 10 ^ ((col.format.bind (fun f => f.decimals)).getD 2)) + 2⁻¹ : ℚ) =
                -q * 10 ^ ((col.format.bind (fun f => f.decimals)).getD 2) + 1 / 2 from by ring]
            exact Int.toNat_eq_zero.mp h0
          have htrue : SpreadsheetGrid.negZeroRounds col v = true := by
            simp [SpreadsheetGrid.negZeroRounds, htype, SpreadsheetGrid.toNumberLike_trim,
              hn, hq, h0f]
          rw [htrue] at hnz
          cases hnz
        obtain ⟨q2, hp, hf⟩ := SpreadsheetGrid.formatNumber_roundtrip q
          ((col.format.bind (fun f => f.decimals)).getD 2) hnz2
        have hne2 : jsTrim (SpreadsheetGrid.formatNumber q
            ((col.format.bind (fun f => f.decimals)).getD 2)).data ≠ [] := by
          show jsTrim (SpreadsheetGrid.toFixed q
            ((col.format.bind (fun f => f.decimals)).getD 2)) ≠ []
          rw [jsTrim_eq_self (fun c hc => (SpreadsheetGrid.toFixed_class q
            ((col.format.bind (fun f => f.decimals)).getD 2) c hc).1)]
          exact SpreadsheetGrid.toFixed_ne_nil q _
        have h2 : SpreadsheetGrid.applyFormattingOnBlur col (SpreadsheetGrid.formatNumber q
            ((col.format.bind (fun f => f.decimals)).getD 2)) =
            SpreadsheetGrid.formatNumber q ((col.format.bind (fun f => f.decimals)).getD 2) := by
          simp [SpreadsheetGrid.applyFormattingOnBlur, htype, isEmpty_false_of_ne_nil hne2,
            SpreadsheetGrid.toNumberLike_trim, hp, hf]
        rw [h1, h2]
    | currency =>
      cases hn : SpreadsheetGrid.toNumberLike v with
      | none =>
        have h1 : SpreadsheetGrid.applyFormattingOnBlur col v = v := by
          simp [SpreadsheetGrid.applyFormattingOnBlur, htype, isEmpty_false_of_ne_nil hemp,
            SpreadsheetGrid.toNumberLike_trim, hn]
        rw [h1]
        exact h1
      | some q =>
        have h1 : SpreadsheetGrid.applyFormattingOnBlur col v =
            SpreadsheetGrid.formatNumber q ((col.format.bind (fun f => f.decimals)).getD 2) := by
          simp [SpreadsheetGrid.applyFormattingOnBlur, htype, isEmpty_false_of_ne_nil hemp,
            SpreadsheetGrid.toNumberLike_trim, hn]
        have hnz2 : ¬(q < 0 ∧
            (⌊-q * 10 ^ ((col.format.bind (fun f => f.decimals)).getD 2) + 1 / 2⌋).toNat = 0) := by
          rintro ⟨hq, h0⟩
          have h0f : ⌊-(q * 10 ^ ((col.format.bind (fun f => f.decimals)).getD 2)) + 2⁻¹⌋
              ≤ 0 := by
            rw [show (-(q * 10 ^ ((col.format.bind (fun f => f.decimals)).getD 2)) + 2⁻¹ : ℚ) =
                -q * 10 ^ ((col.format.bind (fun f => f.decimals)).getD 2) + 1 / 2 from by ring]
            exact Int.toNat_eq_zero.mp h0
          have htrue : SpreadsheetGrid.negZeroRounds col v = true := by
            simp [SpreadsheetGrid.negZeroRounds, htype, SpreadsheetGrid.toNumberLike_trim,
              hn, hq, h0f]
          rw [htrue] at hnz
          cases hnz
        obtain ⟨q2, hp, hf⟩ := SpreadsheetGrid.formatNumber_roundtrip q
          ((col.format.bind (fun f => f.decimals)).getD 2) hnz2
        have hne2 : jsTrim (SpreadsheetGrid.formatNumber q
            ((col.format.bind (fun f => f.decimals)).getD 2)).data ≠ [] := by
          show jsTrim (SpreadsheetGrid.toFixed q
            ((col.format.bind (fun f => f.decimals)).getD 2)) ≠ []
          rw [jsTrim_eq_self (fun c hc => (SpreadsheetGrid.toFixed_class q
            ((col.format.bind (fun f => f.decimals)).getD 2) c hc).1)]
          exact SpreadsheetGrid.toFixed_ne_nil q _
        have h2 : SpreadsheetGrid.applyFormattingOnBlur col (SpreadsheetGrid.formatNumber q
            ((col.format.bind (fun f => f.decimals)).getD 2)) =
            SpreadsheetGrid.formatNumber q ((col.format.bind (fun f => f.decimals)).getD 2) := by
          simp [SpreadsheetGrid.applyFormattingOnBlur, htype, isEmpty_false_of_ne_nil hne2,
            SpreadsheetGrid.toNumberLike_trim, hp, hf]
        rw [h1, h2]
    | percent =>
      cases hn : SpreadsheetGrid.toNumberLike v with
      | none =>
        have h1 : SpreadsheetGrid.applyFormattingOnBlur col v = v := by
          simp [SpreadsheetGrid.applyFormattingOnBlur, htype, isEmpty_false_of_ne_nil hemp,
            SpreadsheetGrid.toNumberLike_trim, hn]
        rw [h1]
        exact h1
      | some q =>
        have h1 : SpreadsheetGrid.applyFormattingOnBlur col v =
            SpreadsheetGrid.formatNumber q ((col.format.bind (fun f => f.decimals)).getD 2)
              ++ "%" := by
          simp [SpreadsheetGrid.applyFormattingOnBlur, htype, isEmpty_false_of_ne_nil hemp,
            SpreadsheetGrid.toNumberLike_trim, hn]
        have hnz2 : ¬(q < 0 ∧
            (⌊-q * 10 ^ ((col.format.bind (fun f => f.decimals)).getD 2) + 1 / 2⌋).toNat = 0) := by
          rintro ⟨hq, h0⟩
          have h0f : ⌊-(q * 10 ^ ((col.format.bind (fun f => f.decimals)).getD 2)) + 2⁻¹⌋
              ≤ 0 := by
            rw [show (-(q * 10 ^ ((col.format.bind (fun f => f.decimals)).getD 2)) + 2⁻¹ : ℚ) =
                -q * 10 ^ ((col.format.bind (fun f => f.decimals)).getD 2) + 1 / 2 from by ring]
            exact Int.toNat_eq_zero.mp h0
          have htrue : SpreadsheetGrid.negZeroRounds col v = true := by
            simp [SpreadsheetGrid.negZeroRounds, htype, SpreadsheetGrid.toNumberLike_trim,
              hn, hq, h0f]
          rw [htrue] at hnz
          cases hnz
        obtain ⟨q2, hp, hf⟩ := SpreadsheetGrid.formatNumber_pct_roundtrip q
          ((col.format.bind (fun f => f.decimals)).getD 2) hnz2
        have hdata : (SpreadsheetGrid.formatNumber q
            ((col.format.bind (fun f => f.decimals)).getD 2) ++ "%").data =
            SpreadsheetGrid.toFixed q ((col.format.bind (fun f => f.decimals)).getD 2)
              ++ ['%'] := by
          rw [String.data_append]
          rfl
        have hws2 : ∀ c ∈ (SpreadsheetGrid.formatNumber q
            ((col.format.bind (fun f => f.decimals)).getD 2) ++ "%").data,
            isWSChar c = false := by
          rw [hdata]
          intro c hc
          rcases List.mem_append.mp hc with h | h
          · exact (SpreadsheetGrid.toFixed_class q _ c h).1
          · rcases List.mem_cons.mp h with h | h
            · subst h
              rfl
            · simp at h
        have hne2 : jsTrim (SpreadsheetGrid.formatNumber q
            ((col.format.bind (fun f => f.decimals)).getD 2) ++ "%").data ≠ [] := by
          rw [jsTrim_eq_self hws2, hdata]
          simp
        have hjt : jsTrim ((SpreadsheetGrid.formatNumber q
            ((col.format.bind (fun f => f.decimals)).getD 2)).data ++ ['%']) =
            (SpreadsheetGrid.formatNumber q
              ((col.format.bind (fun f => f.decimals)).getD 2)).data ++ ['%'] := by
          apply jsTrim_eq_self
          intro c hc
          rcases List.mem_append.mp hc with h | h
          · exact (SpreadsheetGrid.toFixed_class q
              ((col.format.bind (fun f => f.decimals)).getD 2) c h).1
          · rcases List.mem_cons.mp h with h | h
            · subst h
              rfl
            · simp at h
        have hp2 : SpreadsheetGrid.toNumberLike (⟨(SpreadsheetGrid.formatNumber q
            ((col.format.bind (fun f => f.decimals)).getD 2)).data ++ ['%']⟩ : String) =
            some q2 := hp
        have h2 : SpreadsheetGrid.applyFormattingOnBlur col (SpreadsheetGrid.formatNumber q
            ((col.format.bind (fun f => f.decimals)).getD 2) ++ "%") =
            SpreadsheetGrid.formatNumber q ((col.format.bind (fun f => f.decimals)).getD 2)
              ++ "%" := by
          simp [SpreadsheetGrid.applyFormattingOnBlur, htype, hjt, hp2, hf]
        rw [h1, h2]
    | date =>
      cases hn : SpreadsheetGrid.toDateLike v with
      | none =>
        have h1 : SpreadsheetGrid.applyFormattingOnBlur col v = v := by
          simp [SpreadsheetGrid.applyFormattingOnBlur, htype, isEmpty_false_of_ne_nil hemp,
            SpreadsheetGrid.toDateLike_trim, hn]
        rw [h1]
        exact h1
      | some dt =>
        obtain ⟨hm1, hm2, hd1, hd2⟩ := toDateLike_ranges hn
        have h1 : SpreadsheetGrid.applyFormattingOnBlur col v =
            SpreadsheetGrid.formatDate dt ((col.format.bind (fun f => f.dateFormat)).getD
              DateFormat.iso) := by
          simp [SpreadsheetGrid.applyFormattingOnBlur, htype, isEmpty_false_of_ne_nil hemp,
            SpreadsheetGrid.toDateLike_trim, hn]
        have hne2 : jsTrim (SpreadsheetGrid.formatDate dt
            ((col.format.bind (fun f => f.dateFormat)).getD DateFormat.iso)).data ≠ [] := by
          rw [jsTrim_eq_self (SpreadsheetGrid.formatDate_clean _)]
          exact SpreadsheetGrid.formatDate_data_ne_nil dt _
        have hp : SpreadsheetGrid.toDateLike (SpreadsheetGrid.formatDate dt
            ((col.format.bind (fun f => f.dateFormat)).getD DateFormat.iso)) = some dt :=
          SpreadsheetGrid.toDateLike_formatDate hm1 hm2 hd1 hd2 _
        have h2 : SpreadsheetGrid.applyFormattingOnBlur col (SpreadsheetGrid.formatDate dt
            ((col.format.bind (fun f => f.dateFormat)).getD DateFormat.iso)) =
            SpreadsheetGrid.formatDate dt
              ((col.format.bind (fun f => f.dateFormat)).getD DateFormat.iso) := by
          simp [SpreadsheetGrid.applyFormattingOnBlur, htype, isEmpty_false_of_ne_nil hne2,
            SpreadsheetGrid.toDateLike_trim, hp]
        rw [h1, h2]

/-- Witness for the amended C2 theorem at concrete columns and strings. -/
theorem canonicalize_idem_amended_witness :
    SpreadsheetGrid.applyFormattingOnBlur numberCol
        (SpreadsheetGrid.applyFormattingOnBlur numberCol "$1,234.567") =
      SpreadsheetGrid.applyFormattingOnBlur numberCol "$1,234.567" ∧
    SpreadsheetGrid.applyFormattingOnBlur percentCol
        (SpreadsheetGrid.applyFormattingOnBlur percentCol "5.25") =
      SpreadsheetGrid.applyFormattingOnBlur percentCol "5.25" ∧
    SpreadsheetGrid.applyFormattingOnBlur dateColIso
        (SpreadsheetGrid.applyFormattingOnBlur dateColIso "2024-3-5") =
      SpreadsheetGrid.applyFormattingOnBlur dateColIso "2024-3-5" :=
  ⟨canonicalize_idem_amended numberCol "$1,234.567" (by decide),
   canonicalize_idem_amended percentCol "5.25" (by decide),
   canonicalize_idem_amended dateColIso "2024-3-5" (by decide)⟩
